import Mathlib

/-!
Shallow embedding of the core of the `serial_tester` repository
(`src/core/protocol.py`, `src/core/serial_handler.py`, `src/core/test_engine.py`)
together with theorems settling the frozen claims about it.

Modelling conventions:
* Python `bytes` become `List Nat`, with wellformedness (`b < 256`) carried as a
  hypothesis where the Python type system guarantees it.
* Python `float` timestamps become exact rationals `ℚ`; `int(x)` is truncation
  toward zero (`pyInt`).
* Fallible Python code (raising `struct.error` / returning `None`) becomes
  `Option`.
* Python textual error entries such as `"Missing packet: seq=2"` are modelled
  by the inductive `ErrEvent`, one constructor per format string, carrying the
  formatted numeric argument.
-/

set_option maxHeartbeats 1000000
set_option maxRecDepth 100000

namespace SerialTester

/-- Python `int()` applied to a rational: truncation toward zero. -/
def pyInt (q : ℚ) : Int := if 0 ≤ q then ⌊q⌋ else -⌊-q⌋

/-- Big-endian 2-byte encoding, as produced by `struct.pack` with format `!H`
(the pack range check is performed by the caller `serialize_packet`). -/
def be16 (n : Nat) : List Nat := [n / 256 % 256, n % 256]

/-- Big-endian 4-byte encoding, as produced by `struct.pack` with format `!I`. -/
def be32 (n : Nat) : List Nat :=
  [n / 16777216 % 256, n / 65536 % 256, n / 256 % 256, n % 256]

/-- Big-endian 2-byte decoding, `struct.unpack` with format `!H`. -/
def from2be (l : List Nat) : Nat := l.getD 0 0 * 256 + l.getD 1 0

/-- Big-endian 4-byte decoding, `struct.unpack` with format `!I`. -/
def from4be (l : List Nat) : Nat :=
  l.getD 0 0 * 16777216 + l.getD 1 0 * 65536 + l.getD 2 0 * 256 + l.getD 3 0

/-- Reflected CRC-32 polynomial used by `zlib.crc32`. -/
def crcPoly : Nat := 0xEDB88320

/-- One bit step of the bitwise (reflected) CRC-32 computation. -/
def crcStep (c : Nat) : Nat := if c % 2 = 1 then (c / 2) ^^^ crcPoly else c / 2

/-- Absorb one message byte into the running CRC state. -/
def crc32_update (c b : Nat) : Nat := crcStep^[8] (c ^^^ b)

/-- Fold the CRC byte update over a message. -/
def crc32_aux (c : Nat) (data : List Nat) : Nat := data.foldl crc32_update c

/-- Model of `zlib.crc32(data) & 0xffffffff`: initial value `0xFFFFFFFF`,
reflected polynomial `0xEDB88320`, final complement. -/
def crc32 (data : List Nat) : Nat := crc32_aux 0xFFFFFFFF data ^^^ 0xFFFFFFFF

/-- Model of `PacketType` from `src/core/protocol.py`. -/
inductive PacketType where
  | DATA
  | ACK
  | HEARTBEAT
deriving DecidableEq

/-- Wire value of a packet type (`DATA = 0x01`, `ACK = 0x02`, `HEARTBEAT = 0x03`). -/
def PacketType.toByte : PacketType → Nat
  | .DATA => 1
  | .ACK => 2
  | .HEARTBEAT => 3

/-- Model of the Python enum call `PacketType(b)`: `none` models the
`ValueError` raised on an unknown value (caught by `deserialize_packet`). -/
def PacketType.fromByte (b : Nat) : Option PacketType :=
  if b = 1 then some .DATA
  else if b = 2 then some .ACK
  else if b = 3 then some .HEARTBEAT
  else none

/-- Model of the `Packet` dataclass from `src/core/protocol.py`. -/
structure Packet where
  packet_type : PacketType
  sequence_id : Nat
  timestamp : ℚ
  payload : List Nat
deriving DecidableEq

/-- Constant `ProtocolHandler.MAGIC_BYTE = 0xAA`. -/
def MAGIC_BYTE : Nat := 0xAA

/-- Constant `ProtocolHandler.HEADER_SIZE = struct.calcsize('!BBHI') + 4 = 12`
(8 bytes of packed header plus the 4-byte payload size field). -/
def HEADER_SIZE : Nat := 12

/-- Constant `ProtocolHandler.FOOTER_SIZE = 4` (CRC-32 trailer). -/
def FOOTER_SIZE : Nat := 4

/-- Local variable `data = header + payload_size + payload` of
`ProtocolHandler.serialize_packet`: magic byte, type byte, 2-byte big-endian
sequence, 4-byte big-endian millisecond timestamp, 4-byte big-endian payload
length, then the payload. -/
def frame_body (p : Packet) : List Nat :=
  MAGIC_BYTE :: p.packet_type.toByte ::
    (be16 p.sequence_id ++ be32 (pyInt (p.timestamp * 1000)).toNat ++
      be32 p.payload.length ++ p.payload)

/-- Model of `ProtocolHandler.serialize_packet`.  `struct.pack('!BBHI', ...)`
raises `struct.error` when the sequence id does not fit in 16 bits or the
millisecond timestamp does not fit in 32 bits (likewise `!I` for an oversized
payload length); `none` models that exception escaping the function. -/
def serialize_packet (p : Packet) : Option (List Nat) :=
  if 0 ≤ pyInt (p.timestamp * 1000) ∧ pyInt (p.timestamp * 1000) < 4294967296 ∧
      p.sequence_id < 65536 ∧ p.payload.length < 4294967296 then
    some (frame_body p ++ be32 (crc32 (frame_body p)))
  else none

/-- Model of `ProtocolHandler.deserialize_packet`.  Follows the source's check
order: length, magic, declared payload size vs buffer length, checksum, packet
type; any failed check yields `none` (the Python code returns `None`, catching
`struct.error` and `ValueError`). -/
def deserialize_packet (data : List Nat) : Option Packet :=
  if data.length < HEADER_SIZE + FOOTER_SIZE then none
  else
    let magic := data.getD 0 0
    let ptype := data.getD 1 0
    let seq_id := from2be ((data.drop 2).take 2)
    let timestamp_ms := from4be ((data.drop 4).take 4)
    if magic ≠ MAGIC_BYTE then none
    else
      let payload_size := from4be ((data.drop 8).take 4)
      let payload_end := HEADER_SIZE + payload_size
      if data.length < payload_end + FOOTER_SIZE then none
      else
        let payload := (data.drop HEADER_SIZE).take payload_size
        let expected_checksum := from4be ((data.drop payload_end).take 4)
        let actual_checksum := crc32 (data.take payload_end)
        if expected_checksum ≠ actual_checksum then none
        else
          match PacketType.fromByte ptype with
          | none => none
          | some pt => some ⟨pt, seq_id, (timestamp_ms : ℚ) / 1000, payload⟩

/-- Model of `ProtocolHandler.create_packet` acting on the handler's
`sequence_counter`: returns the created packet and the new counter value.
The wall clock reading `time.time()` is passed in as `now`. -/
def create_packet (counter : Nat) (packet_type : PacketType) (payload : List Nat)
    (now : ℚ) : Packet × Nat :=
  (⟨packet_type, counter, now, payload⟩, counter + 1)

/-- Model of `ProtocolHandler.create_ack_packet`: payload is the 4-byte
big-endian acknowledged sequence id. -/
def create_ack_packet (counter : Nat) (sequence_id : Nat) (now : ℚ) : Packet × Nat :=
  create_packet counter .ACK (be32 sequence_id) now

/-- Model of `SerialHandler.send_packet`.  The `connected` flag models
`self.is_connected and self.serial_connection`; `writeOk` models the physical
write not raising `serial.SerialException`.  Only `SerialException` is caught,
so a `struct.error` raised by `serialize_packet` escapes: `none` models that
propagating exception, `some b` the normal boolean return. -/
def send_packet (connected : Bool) (writeOk : Bool) (p : Packet) : Option Bool :=
  if !connected then some false
  else
    match serialize_packet p with
    | none => none
    | some _ => if writeOk then some true else some false

/-- Model of `ProtocolHandler.get_acked_sequence`: valid only for ACK packets
with at least 4 bytes of payload. -/
def get_acked_sequence (p : Packet) : Option Nat :=
  if p.packet_type ≠ PacketType.ACK ∨ p.payload.length < 4 then none
  else some (from4be (p.payload.take 4))

/-- Sequence counter after a run of `create_packet` calls on one
`ProtocolHandler` instance, one list entry per call. -/
def run_creates (counter : Nat) (reqs : List (PacketType × List Nat × ℚ)) : Nat :=
  reqs.foldl (fun c r => (create_packet c r.1 r.2.1 r.2.2).2) counter

/-- Body of the while loop of `SerialHandler._parse_buffer` from
`src/core/serial_handler.py`, rendered as fuel-bounded recursion: every
iteration either stops or strictly shortens the buffer, so `buf.length + 1`
fuel always suffices (see `parse_buffer_loop_fuel`).  Returns the packets
emitted (via the `packet_received` signal) in order, together with the
remaining buffer.  `findIdx?` models `bytearray.find` (`none` for `-1`). -/
def parse_buffer_loop : Nat → List Nat → List Packet × List Nat
  | 0, buf => ([], buf)
  | fuel + 1, buf =>
    if buf.length < HEADER_SIZE + FOOTER_SIZE then ([], buf)
    else
      match buf.findIdx? (fun b => b == MAGIC_BYTE) with
      | none => ([], [])
      | some magic_index =>
        if (buf.drop magic_index).length < HEADER_SIZE then ([], buf.drop magic_index)
        else
          if (buf.drop magic_index).length <
              HEADER_SIZE + from4be (((buf.drop magic_index).drop 8).take 4) + FOOTER_SIZE then
            ([], buf.drop magic_index)
          else
            match deserialize_packet ((buf.drop magic_index).take
                (HEADER_SIZE + from4be (((buf.drop magic_index).drop 8).take 4) +
                  FOOTER_SIZE)) with
            | some p =>
              ((p :: (parse_buffer_loop fuel ((buf.drop magic_index).drop
                  (HEADER_SIZE + from4be (((buf.drop magic_index).drop 8).take 4) +
                    FOOTER_SIZE))).1),
                (parse_buffer_loop fuel ((buf.drop magic_index).drop
                  (HEADER_SIZE + from4be (((buf.drop magic_index).drop 8).take 4) +
                    FOOTER_SIZE))).2)
            | none => parse_buffer_loop fuel ((buf.drop magic_index).drop 1)

/-- Model of `SerialHandler._parse_buffer`: run the loop with enough fuel. -/
def parse_buffer (buf : List Nat) : List Packet × List Nat :=
  parse_buffer_loop (buf.length + 1) buf

/-- State of the receive loop: packets emitted so far and the pending buffer. -/
structure ParseState where
  emitted : List Packet
  buffer : List Nat
deriving DecidableEq

/-- One iteration of `SerialHandler._receive_loop`'s body: append the newly
read chunk to the buffer and run `_parse_buffer`. -/
def feed_chunk (st : ParseState) (chunk : List Nat) : ParseState :=
  ⟨st.emitted ++ (parse_buffer (st.buffer ++ chunk)).1, (parse_buffer (st.buffer ++ chunk)).2⟩

/-- Drive the receive loop over a list of chunks. -/
def feed_chunks (st : ParseState) (chunks : List (List Nat)) : ParseState :=
  chunks.foldl feed_chunk st

/-- Textual error entries appended to `TestMetrics.errors`, one constructor per
format string of `src/core/test_engine.py`, carrying the formatted number. -/
inductive ErrEvent where
  | missingPacket (seq : Int)
  | ackTimeout (seq : Nat)
  | unexpectedData (seq : Nat)
  | unexpectedAck (seq : Nat)
deriving DecidableEq

/-- Model of `TestMode` from `src/core/test_engine.py`. -/
inductive TestMode where
  | TRANSMITTER
  | RECEIVER
deriving DecidableEq

/-- Model of the `TestMetrics` dataclass. -/
structure TestMetrics where
  start_time : ℚ
  end_time : ℚ
  packets_sent : Nat
  packets_received : Nat
  packets_lost : Nat
  bytes_transmitted : Nat
  latency_samples : List ℚ
  bandwidth_samples : List ℚ
  errors : List ErrEvent
deriving DecidableEq

/-- The all-zero metrics record built by `TestEngine.__init__` and
`TestEngine._reset_metrics`. -/
def TestMetrics.empty : TestMetrics := ⟨0, 0, 0, 0, 0, 0, [], [], []⟩

/-- Mutable state of a `TestEngine` instance relevant to the claims.
`received_sequences` models the Python set (kept duplicate-free), and
`acks_sent` records the sequence ids for which `_handle_data_packet_receiver`
called `send_packet` with an ACK. -/
structure TestEngineState where
  mode : TestMode
  packet_size : Nat
  transmission_rate : Nat
  test_duration : Nat
  heartbeat_interval : Nat
  is_running : Bool
  is_paused : Bool
  metrics : TestMetrics
  pending_acks : List (Nat × ℚ)
  expected_sequences : List Nat
  received_sequences : List Nat
  last_sequence : Int
  acks_sent : List Nat
deriving DecidableEq

/-- Model of `TestEngine.configure_test`: refused (returning `False`, mutating
nothing) while a test is running. -/
def configure_test (st : TestEngineState) (mode : TestMode)
    (packet_size transmission_rate test_duration : Nat) : Bool × TestEngineState :=
  if st.is_running then (false, st)
  else
    (true, { st with
      mode := mode
      packet_size := packet_size
      transmission_rate := transmission_rate
      test_duration := test_duration })

/-- Model of `TestEngine._reset_metrics`. -/
def reset_metrics (st : TestEngineState) : TestEngineState :=
  { st with
    metrics := TestMetrics.empty
    pending_acks := []
    expected_sequences := []
    received_sequences := []
    last_sequence := -1 }

/-- Model of `TestEngine.start_test`: refused while running or when the serial
handler is not connected; otherwise resets metrics and starts the test loop. -/
def start_test (st : TestEngineState) (connected : Bool) : Bool × TestEngineState :=
  if st.is_running || !connected then (false, st)
  else
    (true, { reset_metrics st with
      is_running := true
      is_paused := false })

/-- Error entries `Missing packet: seq=s` for `s` in the Python range
`range(a, b)`. -/
def missing_range (a b : Int) : List ErrEvent :=
  (List.range (b - a).toNat).map (fun (k : Nat) => ErrEvent.missingPacket (a + (k : Int)))

/-- Model of `TestEngine._handle_data_packet_receiver`, in source order:
bump received counters, record the sequence, count and log any gap versus
`last_sequence`, advance `last_sequence` via `max`, send an ACK, and append a
latency sample when positive. -/
def handle_data_packet_receiver (st : TestEngineState) (packet : Packet)
    (current_time : ℚ) : TestEngineState :=
  let st1 := { st with
    metrics := { st.metrics with
      packets_received := st.metrics.packets_received + 1
      bytes_transmitted := st.metrics.bytes_transmitted + packet.payload.length }
    received_sequences :=
      if packet.sequence_id ∈ st.received_sequences then st.received_sequences
      else packet.sequence_id :: st.received_sequences }
  let st2 :=
    if (packet.sequence_id : Int) > st1.last_sequence + 1 then
      { st1 with metrics := { st1.metrics with
          packets_lost := st1.metrics.packets_lost +
            ((packet.sequence_id : Int) - st1.last_sequence - 1).toNat
          errors := st1.metrics.errors ++
            missing_range (st1.last_sequence + 1) packet.sequence_id } }
    else st1
  let st3 := { st2 with last_sequence := max st2.last_sequence (packet.sequence_id : Int) }
  let st4 := { st3 with acks_sent := st3.acks_sent ++ [packet.sequence_id] }
  if current_time - packet.timestamp > 0 then
    { st4 with metrics := { st4.metrics with
        latency_samples := st4.metrics.latency_samples ++ [current_time - packet.timestamp] } }
  else st4

/-- Model of `TestEngine._handle_ack_packet_transmitter`. -/
def handle_ack_packet_transmitter (st : TestEngineState) (packet : Packet)
    (current_time : ℚ) : TestEngineState :=
  match get_acked_sequence packet with
  | none => st
  | some acked_seq =>
    match st.pending_acks.find? (fun e => e.1 == acked_seq) with
    | none => st
    | some e =>
      { st with
        metrics := { st.metrics with
          latency_samples := st.metrics.latency_samples ++ [current_time - e.2]
          packets_received := st.metrics.packets_received + 1 }
        pending_acks := st.pending_acks.filter (fun e => ¬(e.1 = acked_seq)) }

/-- Model of `TestEngine._check_ack_timeouts`: the first phase collects the
timed-out sequence ids, the second deletes each, counts it lost, and logs an
error entry. -/
def check_ack_timeouts (st : TestEngineState) (current_time : ℚ)
    (timeout : ℚ := 5) : TestEngineState :=
  let timed_out := (st.pending_acks.filter
    (fun e => decide (current_time - e.2 > timeout))).map Prod.fst
  { st with
    pending_acks := st.pending_acks.filter (fun e => ¬(current_time - e.2 > timeout))
    metrics := { st.metrics with
      packets_lost := st.metrics.packets_lost + timed_out.length
      errors := st.metrics.errors ++ timed_out.map ErrEvent.ackTimeout } }

/-- Model of `TestEngine._handle_received_packet`'s dispatch on packet type and
mode. -/
def handle_received_packet (st : TestEngineState) (packet : Packet)
    (current_time : ℚ) : TestEngineState :=
  if !st.is_running then st
  else
    match packet.packet_type with
    | .DATA =>
      if st.mode = TestMode.TRANSMITTER then
        { st with metrics := { st.metrics with
            errors := st.metrics.errors ++ [ErrEvent.unexpectedData packet.sequence_id] } }
      else handle_data_packet_receiver st packet current_time
    | .ACK =>
      if st.mode = TestMode.TRANSMITTER then handle_ack_packet_transmitter st packet current_time
      else
        { st with metrics := { st.metrics with
            errors := st.metrics.errors ++ [ErrEvent.unexpectedAck packet.sequence_id] } }
    | .HEARTBEAT => st

/-- Drive `_handle_data_packet_receiver` over a list of arriving DATA packets,
each paired with the wall-clock time of its arrival. -/
def run_data_packets (st : TestEngineState) (l : List (Packet × ℚ)) : TestEngineState :=
  l.foldl (fun s pr => handle_data_packet_receiver s pr.1 pr.2) st

/-- Flip one bit of a byte string: bit `i % 8` (least significant bit first)
of byte `i / 8`. -/
def flipBit (data : List Nat) (i : Nat) : List Nat :=
  data.set (i / 8) (data.getD (i / 8) 0 ^^^ (1 <<< (i % 8)))

/-- First 12 bytes of the C7 counterexample frame after its payload_len field
(bytes 8-11) has been zeroed by the bit flip. -/
def cex7_prefix : List Nat := [170, 1, 0, 0, 0, 0, 0, 0, 0, 0, 0, 0]

/-- Payload crafted so that, after flipping payload_len from 4 to 0, the bytes
at positions 12-15 (the payload itself) read back as a correct checksum of the
truncated 12-byte prefix. -/
def cex7_payload : List Nat := be32 (crc32 cex7_prefix)

/-- The C7 counterexample packet. -/
def cex7 : Packet := ⟨.DATA, 0, 0, cex7_payload⟩

/-- Its serialized frame, written with explicit byte literals. -/
def cex7_frame : List Nat :=
  [170, 1, 0, 0, 0, 0, 0, 0, 0, 0, 0, 4] ++ cex7_payload ++
    be32 (crc32 ([170, 1, 0, 0, 0, 0, 0, 0, 0, 0, 0, 4] ++ cex7_payload))

/-- Concrete magic-free garbage bytes used by the C3 witness. -/
def c3_garbage : List Nat := [1, 2, 3]

/-- The encoded frame of the all-zero empty-payload DATA packet `pkt0`; its 12
header bytes are exactly `cex7_prefix`, followed by their CRC-32. -/
def c3_frame : List Nat := cex7_prefix ++ be32 (crc32 cex7_prefix)

/-- C3 counterexample packet: timestamp 1 millisecond, so byte 7 of its frame
(the low byte of the big-endian millisecond field) is 1. -/
def c3_p1 : Packet := ⟨.DATA, 0, 1 / 1000, []⟩

/-- Header bytes of `c3_p1`'s frame (empty payload). -/
def c3_f1_body : List Nat := [170, 1, 0, 0, 0, 0, 0, 1, 0, 0, 0, 0]

/-- `c3_p1`'s full encoded frame. -/
def c3_f1 : List Nat := c3_f1_body ++ be32 (crc32 c3_f1_body)

/-- A running transmitter-mode engine state, used by witnesses. -/
def st_run : TestEngineState :=
  ⟨TestMode.TRANSMITTER, 64, 10, 60, 5, true, false, TestMetrics.empty, [], [], [], -1, []⟩

/-- A freshly reset running receiver-mode engine state. -/
def st_recv : TestEngineState :=
  ⟨TestMode.RECEIVER, 64, 10, 60, 5, true, false, TestMetrics.empty, [], [], [], -1, []⟩

/-- A running transmitter-mode engine state with one pending ack entry
(sequence 0 sent at time 0), used by witnesses. -/
def st_pend : TestEngineState :=
  ⟨TestMode.TRANSMITTER, 64, 10, 60, 5, true, false, TestMetrics.empty, [(0, 0)], [], [], -1, []⟩

/-- DATA packets with sequence ids 0, 1, 3, 4, created at time 0 and each
delivered at time 1. -/
def c4_packets : List (Packet × ℚ) :=
  [(⟨.DATA, 0, 0, []⟩, 1), (⟨.DATA, 1, 0, []⟩, 1), (⟨.DATA, 3, 0, []⟩, 1),
    (⟨.DATA, 4, 0, []⟩, 1)]

/-- Engine state after delivering `c4_packets` to a freshly reset receiver. -/
def c4_run : TestEngineState := run_data_packets st_recv c4_packets

/-- DATA packets with sequence ids 0 and 5, used by the C9 witness. -/
def c9_l : List (Packet × ℚ) := [(⟨.DATA, 0, 0, []⟩, 1), (⟨.DATA, 5, 0, []⟩, 1)]

/-- Consumption points the reassembler can reach on a stream of `gL` magic-free
garbage bytes followed by two frames of lengths `L1` and `L2`: after feeding
`m` bytes, `d` bytes have been deleted from the front, and `d` sits either in
the garbage (with a short pending buffer), at the start of the first frame, at
the start of the second, or at the end of the stream. -/
def c3Valid (gL L1 L2 d m : Nat) : Prop :=
  d ≤ m ∧ m ≤ gL + L1 + L2 ∧
    ((d ≤ gL ∧ m - d < 16) ∨
      (d = gL ∧ m < gL + L1) ∨
      (d = gL + L1 ∧ m < gL + L1 + L2) ∨
      (d = gL + L1 + L2 ∧ m = gL + L1 + L2))

/-- Packets the reassembler has emitted once `d` bytes of the stream are
consumed. -/
def c3Pkts (gL L1 L2 : Nat) (q1 q2 : Packet) (d : Nat) : List Packet :=
  if d < gL + L1 then [] else if d < gL + L1 + L2 then [q1] else [q1, q2]

/-! Helper lemmas about byte-level reads. -/

lemma getD_drop (l : List Nat) (a k : Nat) : (l.drop a).getD k 0 = l.getD (a + k) 0 := by
  simp [List.getD_eq_getElem?_getD, List.getElem?_drop]

lemma getD_take (l : List Nat) {k n : Nat} (h : k < n) : (l.take n).getD k 0 = l.getD k 0 := by
  simp [List.getD_eq_getElem?_getD, List.getElem?_take, h]

lemma from4be_slice (l : List Nat) (a : Nat) :
    from4be ((l.drop a).take 4) =
      l.getD a 0 * 16777216 + l.getD (a + 1) 0 * 65536 + l.getD (a + 2) 0 * 256 +
        l.getD (a + 3) 0 := by
  unfold from4be
  rw [getD_take _ (show 0 < 4 by omega), getD_take _ (show 1 < 4 by omega),
    getD_take _ (show 2 < 4 by omega), getD_take _ (show 3 < 4 by omega),
    getD_drop, getD_drop, getD_drop, getD_drop]
  simp

lemma from2be_slice (l : List Nat) (a : Nat) :
    from2be ((l.drop a).take 2) = l.getD a 0 * 256 + l.getD (a + 1) 0 := by
  unfold from2be
  rw [getD_take _ (show 0 < 2 by omega), getD_take _ (show 1 < 2 by omega),
    getD_drop, getD_drop]
  simp

lemma from4be_be32 {n : Nat} (h : n < 4294967296) : from4be (be32 n) = n := by
  simp [from4be, be32]
  omega

lemma from2be_be16 {n : Nat} (h : n < 65536) : from2be (be16 n) = n := by
  simp [from2be, be16]
  omega

lemma be32_length (n : Nat) : (be32 n).length = 4 := rfl

lemma be16_length (n : Nat) : (be16 n).length = 2 := rfl

lemma be32_mem_lt {n b : Nat} (h : b ∈ be32 n) : b < 256 := by
  simp only [be32, List.mem_cons, List.not_mem_nil, or_false] at h
  rcases h with h | h | h | h <;> omega

/-! Bounds for the CRC-32 state. -/

lemma crcStep_lt {c : Nat} (h : c < 4294967296) : crcStep c < 4294967296 := by
  have h32 : (4294967296 : Nat) = 2 ^ 32 := by norm_num
  unfold crcStep crcPoly
  split
  · rw [h32]
    exact Nat.xor_lt_two_pow (by omega) (by norm_num)
  · omega

lemma crcStepN_lt (n : Nat) {c : Nat} (h : c < 4294967296) : crcStep^[n] c < 4294967296 := by
  induction n generalizing c with
  | zero => simpa using h
  | succ k ih =>
    rw [Function.iterate_succ_apply]
    exact ih (crcStep_lt h)

lemma crc32_update_lt {c b : Nat} (hc : c < 4294967296) (hb : b < 4294967296) :
    crc32_update c b < 4294967296 := by
  have h32 : (4294967296 : Nat) = 2 ^ 32 := by norm_num
  unfold crc32_update
  exact crcStepN_lt 8 (by rw [h32] at hc hb ⊢; exact Nat.xor_lt_two_pow hc hb)

lemma crc32_aux_lt (data : List Nat) {c : Nat} (hc : c < 4294967296)
    (hd : ∀ b ∈ data, b < 4294967296) : crc32_aux c data < 4294967296 := by
  induction data generalizing c with
  | nil => simpa [crc32_aux] using hc
  | cons x xs ih =>
    have hx : x < 4294967296 := hd x (by simp)
    have hxs : ∀ b ∈ xs, b < 4294967296 := fun b hb => hd b (by simp [hb])
    simpa [crc32_aux] using ih (crc32_update_lt hc hx) hxs

lemma crc32_lt (data : List Nat) (hd : ∀ b ∈ data, b < 4294967296) :
    crc32 data < 4294967296 := by
  have h32 : (4294967296 : Nat) = 2 ^ 32 := by norm_num
  unfold crc32
  rw [h32]
  exact Nat.xor_lt_two_pow
    (by rw [← h32]; exact crc32_aux_lt data (by norm_num) hd) (by norm_num)

/-! Shape of a serialized frame. -/

lemma frame_body_eq (p : Packet) : frame_body p =
    170 :: p.packet_type.toByte ::
      (p.sequence_id / 256 % 256) :: (p.sequence_id % 256) ::
      ((pyInt (p.timestamp * 1000)).toNat / 16777216 % 256) ::
      ((pyInt (p.timestamp * 1000)).toNat / 65536 % 256) ::
      ((pyInt (p.timestamp * 1000)).toNat / 256 % 256) ::
      ((pyInt (p.timestamp * 1000)).toNat % 256) ::
      (p.payload.length / 16777216 % 256) :: (p.payload.length / 65536 % 256) ::
      (p.payload.length / 256 % 256) :: (p.payload.length % 256) :: p.payload := by
  simp [frame_body, be16, be32, MAGIC_BYTE]

lemma frame_body_length (p : Packet) : (frame_body p).length = 12 + p.payload.length := by
  rw [frame_body_eq]
  simp
  omega

lemma frame_body_mem_lt {p : Packet} (hb : ∀ b ∈ p.payload, b < 256) :
    ∀ b ∈ frame_body p, b < 256 := by
  intro b hmem
  rw [frame_body_eq] at hmem
  simp only [List.mem_cons] at hmem
  rcases hmem with h | h | h | h | h | h | h | h | h | h | h | h | h
  · omega
  · have : p.packet_type.toByte ≤ 3 := by
      cases p.packet_type <;> simp [PacketType.toByte]
    omega
  all_goals first
    | omega
    | exact hb b h

lemma serialize_packet_eq_some {p : Packet} {w : List Nat} :
    serialize_packet p = some w ↔
      ((0 : Int) ≤ pyInt (p.timestamp * 1000) ∧ pyInt (p.timestamp * 1000) < 4294967296 ∧
        p.sequence_id < 65536 ∧ p.payload.length < 4294967296) ∧
      w = frame_body p ++ be32 (crc32 (frame_body p)) := by
  unfold serialize_packet
  split
  next h =>
    simp only [Option.some.injEq]
    exact ⟨fun hw => ⟨h, hw.symm⟩, fun ⟨_, hw⟩ => hw.symm⟩
  next h =>
    simp only [reduceCtorEq, false_iff, not_and]
    intro hbounds
    exact absurd hbounds h

lemma frame_length_of_serialize {p : Packet} {w : List Nat}
    (h : serialize_packet p = some w) : w.length = 16 + p.payload.length := by
  obtain ⟨-, hw⟩ := serialize_packet_eq_some.mp h
  subst hw
  simp [frame_body_length, be32_length]
  omega

lemma fromByte_toByte (t : PacketType) : PacketType.fromByte t.toByte = some t := by
  cases t <;> rfl

lemma deserialize_serialize {p : Packet} {w : List Nat}
    (hb : ∀ b ∈ p.payload, b < 256) (h : serialize_packet p = some w) :
    deserialize_packet w =
      some ⟨p.packet_type, p.sequence_id,
        (((pyInt (p.timestamp * 1000)).toNat : Nat) : ℚ) / 1000, p.payload⟩ := by
  obtain ⟨⟨hms0, hmsub, hseq, hN⟩, hw⟩ := serialize_packet_eq_some.mp h
  have hmslt : (pyInt (p.timestamp * 1000)).toNat < 4294967296 := by omega
  have hlen : w.length = 16 + p.payload.length := frame_length_of_serialize h
  have hbody_len : (frame_body p).length = 12 + p.payload.length := frame_body_length p
  have hClt : crc32 (frame_body p) < 4294967296 :=
    crc32_lt _ (fun b hb' => (frame_body_mem_lt hb b hb').trans (by norm_num))
  have hwcons : w = 170 :: p.packet_type.toByte ::
      (p.sequence_id / 256 % 256) :: (p.sequence_id % 256) ::
      ((pyInt (p.timestamp * 1000)).toNat / 16777216 % 256) ::
      ((pyInt (p.timestamp * 1000)).toNat / 65536 % 256) ::
      ((pyInt (p.timestamp * 1000)).toNat / 256 % 256) ::
      ((pyInt (p.timestamp * 1000)).toNat % 256) ::
      (p.payload.length / 16777216 % 256) :: (p.payload.length / 65536 % 256) ::
      (p.payload.length / 256 % 256) :: (p.payload.length % 256) ::
      (p.payload ++ be32 (crc32 (frame_body p))) := by
    rw [hw, frame_body_eq]
    simp
  have hmagic : w.getD 0 0 = 170 := by rw [hwcons]; rfl
  have htype : w.getD 1 0 = p.packet_type.toByte := by rw [hwcons]; rfl
  have hseqr : from2be ((w.drop 2).take 2) = p.sequence_id := by
    rw [hwcons]
    simp only [List.drop, List.take, from2be, List.getD_cons_zero, List.getD_cons_succ]
    omega
  have htsr : from4be ((w.drop 4).take 4) = (pyInt (p.timestamp * 1000)).toNat := by
    rw [hwcons]
    simp only [List.drop, List.take, from4be, List.getD_cons_zero, List.getD_cons_succ]
    omega
  have hszr : from4be ((w.drop 8).take 4) = p.payload.length := by
    rw [hwcons]
    simp only [List.drop, List.take, from4be, List.getD_cons_zero, List.getD_cons_succ]
    omega
  have hpay : (w.drop 12).take p.payload.length = p.payload := by
    rw [hwcons]
    simp only [List.drop]
    exact List.take_left' rfl
  have hcks : from4be ((w.drop (12 + p.payload.length)).take 4) = crc32 (frame_body p) := by
    rw [hw, List.drop_left' hbody_len]
    rw [show (be32 (crc32 (frame_body p))).take 4 = be32 (crc32 (frame_body p)) from
      List.take_of_length_le (by rw [be32_length])]
    exact from4be_be32 hClt
  have hcomputed : crc32 (w.take (12 + p.payload.length)) = crc32 (frame_body p) := by
    rw [hw, List.take_left' hbody_len]
  unfold deserialize_packet
  simp only [HEADER_SIZE, FOOTER_SIZE, MAGIC_BYTE, hlen, hmagic, htype, hseqr, htsr, hszr,
    hpay, hcks, hcomputed, fromByte_toByte]
  rw [if_neg (by omega), if_neg (by norm_num), if_neg (by omega), if_neg (by simp)]

lemma serialize_isSome_getD {p : Packet}
    (h : 0 ≤ pyInt (p.timestamp * 1000) ∧ pyInt (p.timestamp * 1000) < 4294967296 ∧
      p.sequence_id < 65536 ∧ p.payload.length < 4294967296) :
    serialize_packet p = some ((serialize_packet p).getD []) := by
  unfold serialize_packet
  rw [if_pos h]
  rfl

lemma pyInt_intCast (n : Int) : pyInt (n : ℚ) = n := by
  unfold pyInt
  split
  · exact Int.floor_intCast n
  · rw [← Int.cast_neg, Int.floor_intCast]
    ring

/-- Concrete packet used by witnesses: non-millisecond-aligned timestamp. -/
def pkt1 : Packet := ⟨.DATA, 7, 10 + 1 / 3, [4, 200]⟩

/-- Concrete packet with empty payload. -/
def pkt0 : Packet := ⟨.DATA, 0, 0, []⟩

/-- Concrete packet whose sequence id overflows the 16-bit wire field. -/
def pkt_big : Packet := ⟨.DATA, 70000, 0, []⟩

/-- C1: for every packet built from a valid `(type, payload)` pair whose
serialization succeeds, deserializing the serialized frame yields a packet
equal in type, sequence id and payload, whose timestamp is the original
timestamp truncated to the millisecond (`int(ts*1000)/1000`), hence matching
the original timestamp to the millisecond. -/
theorem c1_round_trip (p : Packet) (w : List Nat)
    (hb : ∀ b ∈ p.payload, b < 256) (h : serialize_packet p = some w) :
    ∃ q : Packet, deserialize_packet w = some q ∧
      q.packet_type = p.packet_type ∧ q.sequence_id = p.sequence_id ∧
      q.payload = p.payload ∧
      q.timestamp = (pyInt (p.timestamp * 1000) : ℚ) / 1000 ∧
      pyInt (q.timestamp * 1000) = pyInt (p.timestamp * 1000) := by
  obtain ⟨⟨hms0, -, -, -⟩, -⟩ := serialize_packet_eq_some.mp h
  have hq := deserialize_serialize hb h
  have hcast : (((pyInt (p.timestamp * 1000)).toNat : Nat) : ℚ) =
      ((pyInt (p.timestamp * 1000) : Int) : ℚ) :=
    mod_cast congrArg (fun z : Int => (z : ℚ)) (Int.toNat_of_nonneg hms0)
  refine ⟨_, hq, rfl, rfl, rfl, ?_, ?_⟩
  · show (((pyInt (p.timestamp * 1000)).toNat : Nat) : ℚ) / 1000 =
      (pyInt (p.timestamp * 1000) : ℚ) / 1000
    rw [hcast]
  · show pyInt ((((pyInt (p.timestamp * 1000)).toNat : Nat) : ℚ) / 1000 * 1000) =
      pyInt (p.timestamp * 1000)
    rw [hcast, div_mul_cancel₀ _ (by norm_num : (1000 : ℚ) ≠ 0), pyInt_intCast]

theorem c1_round_trip_witness :
    (∀ b ∈ pkt1.payload, b < 256) ∧
    serialize_packet pkt1 = some ((serialize_packet pkt1).getD []) ∧
    ∃ q : Packet, deserialize_packet ((serialize_packet pkt1).getD []) = some q ∧
      q.packet_type = pkt1.packet_type ∧ q.sequence_id = pkt1.sequence_id ∧
      q.payload = pkt1.payload ∧
      q.timestamp = (pyInt (pkt1.timestamp * 1000) : ℚ) / 1000 ∧
      pyInt (q.timestamp * 1000) = pyInt (pkt1.timestamp * 1000) := by
  have hcond : (0 : Int) ≤ pyInt (pkt1.timestamp * 1000) ∧
      pyInt (pkt1.timestamp * 1000) < 4294967296 ∧
      pkt1.sequence_id < 65536 ∧ pkt1.payload.length < 4294967296 := by
    norm_num [pyInt, pkt1]
  have h := serialize_isSome_getD hcond
  exact ⟨by decide, h, c1_round_trip pkt1 _ (by decide) h⟩

/-- C2: `deserialize_packet` returns `none` (and, being a total function of its
input, never raises and never mutates caller state) exactly when the buffer is
shorter than the minimum frame size, the magic byte mismatches, the declared
payload length makes the frame exceed the buffer, the checksum mismatches, or
the type byte is unknown. -/
theorem c2_deserialize_fail_iff (data : List Nat) (_hbytes : ∀ b ∈ data, b < 256) :
    deserialize_packet data = none ↔
      (data.length < HEADER_SIZE + FOOTER_SIZE ∨
        data.getD 0 0 ≠ MAGIC_BYTE ∨
        data.length < HEADER_SIZE + from4be ((data.drop 8).take 4) + FOOTER_SIZE ∨
        from4be ((data.drop (HEADER_SIZE + from4be ((data.drop 8).take 4))).take 4) ≠
          crc32 (data.take (HEADER_SIZE + from4be ((data.drop 8).take 4))) ∨
        PacketType.fromByte (data.getD 1 0) = none) := by
  simp only [deserialize_packet]
  split_ifs with h1 h2 h3 h4
  · exact iff_of_true rfl (Or.inl h1)
  · exact iff_of_true rfl (Or.inr (Or.inl h2))
  · exact iff_of_true rfl (Or.inr (Or.inr (Or.inl h3)))
  · exact iff_of_true rfl (Or.inr (Or.inr (Or.inr (Or.inl h4))))
  · cases hpt : PacketType.fromByte (data.getD 1 0) with
    | none => exact iff_of_true rfl (Or.inr (Or.inr (Or.inr (Or.inr rfl))))
    | some pt =>
      refine iff_of_false (by simp) ?_
      push_neg
      exact ⟨not_lt.mp h1, not_ne_iff.mp h2, not_lt.mp h3, not_ne_iff.mp h4, by simp⟩

theorem c2_deserialize_fail_iff_witness :
    (∀ b ∈ ([170, 1, 0] : List Nat), b < 256) ∧
    (deserialize_packet [170, 1, 0] = none ↔
      (([170, 1, 0] : List Nat).length < HEADER_SIZE + FOOTER_SIZE ∨
        ([170, 1, 0] : List Nat).getD 0 0 ≠ MAGIC_BYTE ∨
        ([170, 1, 0] : List Nat).length <
          HEADER_SIZE + from4be ((([170, 1, 0] : List Nat).drop 8).take 4) + FOOTER_SIZE ∨
        from4be ((([170, 1, 0] : List Nat).drop
            (HEADER_SIZE + from4be ((([170, 1, 0] : List Nat).drop 8).take 4))).take 4) ≠
          crc32 (([170, 1, 0] : List Nat).take
            (HEADER_SIZE + from4be ((([170, 1, 0] : List Nat).drop 8).take 4))) ∨
        PacketType.fromByte (([170, 1, 0] : List Nat).getD 1 0) = none)) :=
  ⟨by decide, c2_deserialize_fail_iff [170, 1, 0] (by decide)⟩

/-- C6 counterexample: the frame of an empty-payload packet is 16 bytes long,
not `12 + 4 + 0 + 4 = 20` as the claim computes — the constant `HEADER_SIZE =
12` already includes the 4-byte payload length on top of the 8-byte packed
header. -/
theorem c6_counterexample :
    (serialize_packet pkt0).map List.length = some 16 ∧
    (serialize_packet pkt0).map List.length ≠ some (12 + 4 + 0 + 4) := by
  have hcond : (0 : Int) ≤ pyInt (pkt0.timestamp * 1000) ∧
      pyInt (pkt0.timestamp * 1000) < 4294967296 ∧
      pkt0.sequence_id < 65536 ∧ pkt0.payload.length < 4294967296 := by
    norm_num [pyInt, pkt0]
  have h := serialize_isSome_getD hcond
  have hlen := frame_length_of_serialize h
  rw [h]
  have hpl : pkt0.payload.length = 0 := rfl
  rw [hpl] at hlen
  constructor
  · simp [hlen]
  · simp [hlen]

/-- C6 amended: the serialized frame of a packet with payload length `N` has
`8 + 4 + N + 4` bytes: an 8-byte packed header (`!BBHI`), the 4-byte
payload_len, the payload, and the 4-byte checksum. -/
theorem c6_amended (p : Packet) (w : List Nat) (h : serialize_packet p = some w) :
    w.length = 8 + 4 + p.payload.length + 4 := by
  have := frame_length_of_serialize h
  omega

theorem c6_amended_witness :
    serialize_packet pkt0 = some ((serialize_packet pkt0).getD []) ∧
    ((serialize_packet pkt0).getD []).length = 8 + 4 + pkt0.payload.length + 4 := by
  have hcond : (0 : Int) ≤ pyInt (pkt0.timestamp * 1000) ∧
      pyInt (pkt0.timestamp * 1000) < 4294967296 ∧
      pkt0.sequence_id < 65536 ∧ pkt0.payload.length < 4294967296 := by
    norm_num [pyInt, pkt0]
  have h := serialize_isSome_getD hcond
  exact ⟨h, c6_amended pkt0 _ h⟩

/-- C10: `serialize_packet` fails with `struct.error` (modelled by `none`)
whenever the millisecond timestamp is outside `[0, 2^32)` or the sequence id is
outside `[0, 2^16)`; in particular for packets stamped by `create_packet` at a
wall-clock of `2^32` milliseconds or more, and for the packet created after
65536 `create_packet` calls on one handler instance; and `send_packet` with a
connected transport propagates exactly that exception. -/
theorem c10_serialize_partial_raises :
    (∀ p : Packet,
        (pyInt (p.timestamp * 1000) < 0 ∨ 4294967296 ≤ pyInt (p.timestamp * 1000) ∨
          65536 ≤ p.sequence_id) →
        serialize_packet p = none) ∧
    (∀ (counter : Nat) (ty : PacketType) (payload : List Nat) (now : ℚ),
        4294967296 ≤ pyInt (now * 1000) →
        serialize_packet (create_packet counter ty payload now).1 = none) ∧
    (∀ (reqs : List (PacketType × List Nat × ℚ)) (ty : PacketType) (payload : List Nat)
        (now : ℚ), reqs.length = 65536 →
        serialize_packet (create_packet (run_creates 0 reqs) ty payload now).1 = none) ∧
    (∀ (writeOk : Bool) (p : Packet),
        send_packet true writeOk p = none ↔ serialize_packet p = none) := by
  have hrun : ∀ (reqs : List (PacketType × List Nat × ℚ)) (c : Nat),
      run_creates c reqs = c + reqs.length := by
    intro reqs
    induction reqs with
    | nil => intro c; simp [run_creates]
    | cons r rs ih =>
      intro c
      have : run_creates c (r :: rs) = run_creates (c + 1) rs := by
        simp [run_creates, create_packet]
      rw [this, ih]
      simp
      omega
  refine ⟨?_, ?_, ?_, ?_⟩
  · intro p hp
    unfold serialize_packet
    rw [if_neg (by omega)]
  · intro counter ty payload now hnow
    unfold serialize_packet create_packet
    rw [if_neg (by simp only []; omega)]
  · intro reqs ty payload now hlen
    unfold serialize_packet create_packet
    rw [if_neg (by simp only []; rw [hrun reqs 0] at *; omega)]
  · intro writeOk p
    unfold send_packet
    cases hs : serialize_packet p with
    | none => simp
    | some w => cases writeOk <;> simp

theorem c10_serialize_partial_raises_witness :
    65536 ≤ pkt_big.sequence_id ∧ serialize_packet pkt_big = none ∧
    send_packet true true pkt_big = none :=
  ⟨by decide,
   c10_serialize_partial_raises.1 pkt_big (Or.inr (Or.inr (by decide))),
   (c10_serialize_partial_raises.2.2.2 true pkt_big).mpr
     (c10_serialize_partial_raises.1 pkt_big (Or.inr (Or.inr (by decide))))⟩

/-! List update helpers. -/

lemma getD_set_self {l : List Nat} {j v : Nat} (h : j < l.length) :
    (l.set j v).getD j 0 = v := by
  simp [List.getD_eq_getElem?_getD, List.getElem?_set_self h]

lemma getD_set_ne {l : List Nat} {j t v : Nat} (h : j ≠ t) :
    (l.set j v).getD t 0 = l.getD t 0 := by
  simp [List.getD_eq_getElem?_getD, List.getElem?_set_ne h]

lemma take_set_of_le (l : List Nat) (v : Nat) : ∀ {j m : Nat}, m ≤ j →
    (l.set j v).take m = l.take m := by
  induction l with
  | nil => intros; simp
  | cons x xs ih =>
    intro j m h
    cases j with
    | zero =>
      have hm : m = 0 := Nat.le_zero.mp h
      simp [hm]
    | succ j' =>
      cases m with
      | zero => simp
      | succ m' =>
        simp only [List.set_cons_succ, List.take_succ_cons]
        rw [ih (Nat.succ_le_succ_iff.mp h)]

lemma take_set_of_lt (l : List Nat) (v : Nat) : ∀ {j m : Nat}, j < m →
    (l.set j v).take m = (l.take m).set j v := by
  induction l with
  | nil => intros; simp
  | cons x xs ih =>
    intro j m h
    cases m with
    | zero => omega
    | succ m' =>
      cases j with
      | zero => simp
      | succ j' =>
        simp only [List.set_cons_succ, List.take_succ_cons]
        rw [ih (by omega)]

lemma getD_cons_drop {l : List Nat} {j : Nat} (h : j < l.length) :
    l.getD j 0 :: l.drop (j + 1) = l.drop j := by
  rw [List.getD_eq_getElem?_getD, List.getElem?_eq_getElem h]
  exact List.getElem_cons_drop l j h

lemma decomp_at {l : List Nat} {j : Nat} (h : j < l.length) :
    l = l.take j ++ l.getD j 0 :: l.drop (j + 1) := by
  rw [getD_cons_drop h, List.take_append_drop]

/-! CRC-32 single-byte sensitivity. -/

lemma crcStep_inj {c c' : Nat} (hc : c < 4294967296) (hc' : c' < 4294967296)
    (h : crcStep c = crcStep c') : c = c' := by
  have hhigh : ∀ a : Nat, a < 4294967296 → ((a / 2) ^^^ crcPoly).testBit 31 = true := by
    intro a ha
    rw [Nat.testBit_xor, Nat.testBit_lt_two_pow (show a / 2 < 2 ^ 31 by omega)]
    decide
  have hlow : ∀ a : Nat, a < 4294967296 → (a / 2).testBit 31 = false := by
    intro a ha
    exact Nat.testBit_lt_two_pow (by omega)
  unfold crcStep at h
  by_cases h1 : c % 2 = 1 <;> by_cases h2 : c' % 2 = 1
  · rw [if_pos h1, if_pos h2] at h
    have h3 : c / 2 = c' / 2 := by
      have h4 := congrArg (fun x => x ^^^ crcPoly) h
      simpa [Nat.xor_cancel_right] using h4
    omega
  · rw [if_pos h1, if_neg h2] at h
    have h5 := hhigh c hc
    rw [h, hlow c' hc'] at h5
    exact absurd h5 (by simp)
  · rw [if_neg h1, if_pos h2] at h
    have h5 := hhigh c' hc'
    rw [← h, hlow c hc] at h5
    exact absurd h5 (by simp)
  · rw [if_neg h1, if_neg h2] at h
    omega

lemma crcStepN_inj (n : Nat) : ∀ {c c' : Nat}, c < 4294967296 → c' < 4294967296 →
    crcStep^[n] c = crcStep^[n] c' → c = c' := by
  induction n with
  | zero => intro c c' _ _ h; simpa using h
  | succ k ih =>
    intro c c' hc hc' h
    rw [Function.iterate_succ_apply, Function.iterate_succ_apply] at h
    exact crcStep_inj hc hc' (ih (crcStep_lt hc) (crcStep_lt hc') h)

lemma crc32_update_inj {c c' b : Nat} (hc : c < 4294967296) (hc' : c' < 4294967296)
    (hb : b < 4294967296) (h : crc32_update c b = crc32_update c' b) : c = c' := by
  have h32 : (4294967296 : Nat) = 2 ^ 32 := by norm_num
  have h1 : c ^^^ b = c' ^^^ b :=
    crcStepN_inj 8 (by rw [h32] at hc hb ⊢; exact Nat.xor_lt_two_pow hc hb)
      (by rw [h32] at hc' hb ⊢; exact Nat.xor_lt_two_pow hc' hb) h
  have h2 := congrArg (fun x => x ^^^ b) h1
  simpa [Nat.xor_cancel_right] using h2

lemma crc32_update_byte_ne {c b b' : Nat} (hc : c < 4294967296) (hb : b < 4294967296)
    (hb' : b' < 4294967296) (hne : b ≠ b') : crc32_update c b ≠ crc32_update c b' := by
  intro h
  have h32 : (4294967296 : Nat) = 2 ^ 32 := by norm_num
  have h1 : c ^^^ b = c ^^^ b' :=
    crcStepN_inj 8 (by rw [h32] at hc hb ⊢; exact Nat.xor_lt_two_pow hc hb)
      (by rw [h32] at hc hb' ⊢; exact Nat.xor_lt_two_pow hc hb') h
  have h2 := congrArg (fun x => c ^^^ x) h1
  exact hne (by simpa [Nat.xor_cancel_left] using h2)

lemma crc32_aux_inj (l : List Nat) : ∀ {c c' : Nat}, c < 4294967296 → c' < 4294967296 →
    (∀ b ∈ l, b < 4294967296) → crc32_aux c l = crc32_aux c' l → c = c' := by
  induction l with
  | nil => intro c c' _ _ _ h; simpa [crc32_aux] using h
  | cons x xs ih =>
    intro c c' hc hc' hl h
    have hx : x < 4294967296 := hl x (by simp)
    have h1 : crc32_update c x = crc32_update c' x :=
      ih (crc32_update_lt hc hx) (crc32_update_lt hc' hx)
        (fun b hb => hl b (by simp [hb])) (by simpa [crc32_aux] using h)
    exact crc32_update_inj hc hc' hx h1

lemma crc32_aux_append (l1 l2 : List Nat) (c : Nat) :
    crc32_aux c (l1 ++ l2) = crc32_aux (crc32_aux c l1) l2 := by
  simp [crc32_aux, List.foldl_append]

lemma crc32_ne_of_middle_byte {pre suf : List Nat} {b b' : Nat}
    (hpre : ∀ x ∈ pre, x < 4294967296) (hsuf : ∀ x ∈ suf, x < 4294967296)
    (hb : b < 4294967296) (hb' : b' < 4294967296) (hne : b ≠ b') :
    crc32 (pre ++ b :: suf) ≠ crc32 (pre ++ b' :: suf) := by
  intro h
  unfold crc32 at h
  have h2 : crc32_aux 0xFFFFFFFF (pre ++ b :: suf) =
      crc32_aux 0xFFFFFFFF (pre ++ b' :: suf) := by
    have h3 := congrArg (fun x => x ^^^ 0xFFFFFFFF) h
    simpa [Nat.xor_cancel_right] using h3
  rw [crc32_aux_append, crc32_aux_append] at h2
  have hc0 : crc32_aux 0xFFFFFFFF pre < 4294967296 := crc32_aux_lt pre (by norm_num) hpre
  have h5 : crc32_aux (crc32_update (crc32_aux 0xFFFFFFFF pre) b) suf =
      crc32_aux (crc32_update (crc32_aux 0xFFFFFFFF pre) b') suf := by
    simpa [crc32_aux] using h2
  have h4 := crc32_aux_inj suf (crc32_update_lt hc0 hb) (crc32_update_lt hc0 hb') hsuf h5
  exact crc32_update_byte_ne hc0 hb hb' hne h4

/-! Reads of a serialized frame. -/

lemma frame_cons_form {p : Packet} {w : List Nat} (h : serialize_packet p = some w) :
    w = 170 :: p.packet_type.toByte ::
      (p.sequence_id / 256 % 256) :: (p.sequence_id % 256) ::
      ((pyInt (p.timestamp * 1000)).toNat / 16777216 % 256) ::
      ((pyInt (p.timestamp * 1000)).toNat / 65536 % 256) ::
      ((pyInt (p.timestamp * 1000)).toNat / 256 % 256) ::
      ((pyInt (p.timestamp * 1000)).toNat % 256) ::
      (p.payload.length / 16777216 % 256) :: (p.payload.length / 65536 % 256) ::
      (p.payload.length / 256 % 256) :: (p.payload.length % 256) ::
      (p.payload ++ be32 (crc32 (frame_body p))) := by
  obtain ⟨-, hw⟩ := serialize_packet_eq_some.mp h
  rw [hw, frame_body_eq]
  simp

lemma frame_magic {p : Packet} {w : List Nat} (h : serialize_packet p = some w) :
    w.getD 0 0 = 170 := by
  rw [frame_cons_form h]
  rfl

lemma frame_size_field {p : Packet} {w : List Nat} (h : serialize_packet p = some w) :
    from4be ((w.drop 8).take 4) = p.payload.length := by
  obtain ⟨⟨-, -, -, hN⟩, -⟩ := serialize_packet_eq_some.mp h
  rw [frame_cons_form h]
  simp only [List.drop, List.take, from4be, List.getD_cons_zero, List.getD_cons_succ]
  omega

lemma frame_take_body {p : Packet} {w : List Nat} (h : serialize_packet p = some w) :
    w.take (12 + p.payload.length) = frame_body p := by
  obtain ⟨-, hw⟩ := serialize_packet_eq_some.mp h
  rw [hw]
  exact List.take_left' (frame_body_length p)

lemma frame_drop_body {p : Packet} {w : List Nat} (h : serialize_packet p = some w) :
    w.drop (12 + p.payload.length) = be32 (crc32 (frame_body p)) := by
  obtain ⟨-, hw⟩ := serialize_packet_eq_some.mp h
  rw [hw]
  exact List.drop_left' (frame_body_length p)

lemma frame_stored_cksum {p : Packet} {w : List Nat} (hb : ∀ b ∈ p.payload, b < 256)
    (h : serialize_packet p = some w) :
    from4be ((w.drop (12 + p.payload.length)).take 4) = crc32 (frame_body p) := by
  rw [frame_drop_body h,
    List.take_of_length_le (by rw [be32_length] : (be32 (crc32 (frame_body p))).length ≤ 4)]
  exact from4be_be32
    (crc32_lt _ (fun x hx => (frame_body_mem_lt hb x hx).trans (by norm_num)))

lemma be32_getD_lt {n : Nat} : ∀ {t : Nat}, t < 4 → (be32 n).getD t 0 < 256 := by
  intro t ht
  interval_cases t <;> simp [be32] <;> omega

/-! Decode failure conditions. -/

lemma deserialize_none_of_magic {data : List Nat} (h : data.getD 0 0 ≠ MAGIC_BYTE) :
    deserialize_packet data = none := by
  simp only [deserialize_packet]
  split_ifs <;> first | rfl | simp_all

lemma deserialize_none_of_checksum {data : List Nat}
    (h : from4be ((data.drop (12 + from4be ((data.drop 8).take 4))).take 4) ≠
      crc32 (data.take (12 + from4be ((data.drop 8).take 4)))) :
    deserialize_packet data = none := by
  simp only [deserialize_packet, HEADER_SIZE, FOOTER_SIZE]
  split_ifs <;> first | rfl | simp_all

lemma four_sum_ne {b0 b1 b2 b3 c0 c1 c2 c3 : Nat}
    (h0 : b0 < 256) (h1 : b1 < 256) (h2 : b2 < 256) (h3 : b3 < 256)
    (g0 : c0 < 256) (g1 : c1 < 256) (g2 : c2 < 256) (g3 : c3 < 256)
    (hne : ¬(b0 = c0 ∧ b1 = c1 ∧ b2 = c2 ∧ b3 = c3)) :
    b0 * 16777216 + b1 * 65536 + b2 * 256 + b3 ≠
      c0 * 16777216 + c1 * 65536 + c2 * 256 + c3 := by
  intro h
  exact hne (by omega)

/-- C7 amended: flipping any single bit outside the payload_len field (byte
indices 8-11) of a valid encoded frame makes `deserialize_packet` fail.  Bit
`i` lives in byte `i / 8` (least significant bit first within each byte). -/
theorem c7_amended (p : Packet) (w : List Nat) (i : Nat)
    (hb : ∀ b ∈ p.payload, b < 256)
    (h : serialize_packet p = some w)
    (hi : i < 8 * w.length)
    (hreg : i / 8 < 8 ∨ 12 ≤ i / 8) :
    deserialize_packet (flipBit w i) = none := by
  obtain ⟨⟨hms0, hms1, hseq, hN⟩, hw⟩ := serialize_packet_eq_some.mp h
  have hlen : w.length = 16 + p.payload.length := frame_length_of_serialize h
  have hbody_len := frame_body_length p
  have hj : i / 8 < w.length := by omega
  have hk : i % 8 < 8 := Nat.mod_lt _ (by omega)
  have hshift_pos : 0 < 1 <<< (i % 8) := by
    rw [Nat.one_shiftLeft]
    positivity
  have hshift_lt : 1 <<< (i % 8) < 256 := by
    rw [Nat.one_shiftLeft]
    calc 2 ^ (i % 8) ≤ 2 ^ 7 := Nat.pow_le_pow_right (by omega) (by omega)
    _ < 256 := by norm_num
  have hflip_ne : ∀ a : Nat, a ^^^ (1 <<< (i % 8)) ≠ a := by
    intro a heq
    have h3 := congrArg (fun x => a ^^^ x) heq
    simp only [Nat.xor_cancel_left, Nat.xor_self] at h3
    omega
  have hbytes256 := frame_body_mem_lt hb
  by_cases hj0 : i / 8 = 0
  · apply deserialize_none_of_magic
    unfold flipBit
    rw [hj0, getD_set_self (by omega), frame_magic h]
    simpa [MAGIC_BYTE] using hflip_ne 170
  · by_cases hjc : i / 8 < 12 + p.payload.length
    · -- flipped byte lies in the checksummed region (type/seq/ts or payload)
      have hjne : ∀ t : Nat, 8 ≤ t → t ≤ 11 → i / 8 ≠ t := by
        intro t ht1 ht2
        rcases hreg with hr | hr <;> omega
      apply deserialize_none_of_checksum
      have hsz : from4be (((flipBit w i).drop 8).take 4) = p.payload.length := by
        rw [from4be_slice]
        unfold flipBit
        rw [getD_set_ne (hjne 8 (by omega) (by omega)),
          getD_set_ne (hjne 9 (by omega) (by omega)),
          getD_set_ne (hjne 10 (by omega) (by omega)),
          getD_set_ne (hjne 11 (by omega) (by omega)),
          ← from4be_slice]
        exact frame_size_field h
      rw [hsz]
      have hstored : from4be (((flipBit w i).drop (12 + p.payload.length)).take 4) =
          crc32 (frame_body p) := by
        rw [from4be_slice]
        unfold flipBit
        rw [getD_set_ne (by omega), getD_set_ne (by omega), getD_set_ne (by omega),
          getD_set_ne (by omega), ← from4be_slice]
        exact frame_stored_cksum hb h
      rw [hstored]
      have htake : (flipBit w i).take (12 + p.payload.length) =
          (frame_body p).set (i / 8) ((frame_body p).getD (i / 8) 0 ^^^ (1 <<< (i % 8))) := by
        unfold flipBit
        rw [take_set_of_lt _ _ hjc, frame_take_body h]
        congr 2
        rw [hw]
        exact List.getD_append _ _ _ _ (by omega)
      rw [htake]
      have hjblen : i / 8 < (frame_body p).length := by omega
      have hmem : (frame_body p).getD (i / 8) 0 ∈ frame_body p := by
        rw [List.getD_eq_getElem?_getD, List.getElem?_eq_getElem hjblen]
        simp
      have hb0 : (frame_body p).getD (i / 8) 0 < 256 := hbytes256 _ hmem
      rw [List.set_eq_take_cons_drop _ hjblen]
      conv_lhs => rw [decomp_at hjblen]
      apply crc32_ne_of_middle_byte
      · exact fun x hx => (hbytes256 x (List.take_subset _ _ hx)).trans (by norm_num)
      · exact fun x hx => (hbytes256 x (List.drop_subset _ _ hx)).trans (by norm_num)
      · exact hb0.trans (by norm_num)
      · have h8 : (256 : Nat) = 2 ^ 8 := by norm_num
        have : (frame_body p).getD (i / 8) 0 ^^^ (1 <<< (i % 8)) < 256 := by
          rw [h8] at hb0 hshift_lt ⊢
          exact Nat.xor_lt_two_pow hb0 hshift_lt
        exact this.trans (by norm_num)
      · exact (hflip_ne _).symm
    · -- flipped byte lies in the checksum trailer
      have hj1 : 12 + p.payload.length ≤ i / 8 := by omega
      apply deserialize_none_of_checksum
      have hsz : from4be (((flipBit w i).drop 8).take 4) = p.payload.length := by
        rw [from4be_slice]
        unfold flipBit
        rw [getD_set_ne (by omega), getD_set_ne (by omega), getD_set_ne (by omega),
          getD_set_ne (by omega), ← from4be_slice]
        exact frame_size_field h
      rw [hsz]
      have hcomp : (flipBit w i).take (12 + p.payload.length) = frame_body p := by
        unfold flipBit
        rw [take_set_of_le _ _ hj1]
        exact frame_take_body h
      rw [hcomp]
      have horig : ∀ t : Nat, t < 4 → w.getD (12 + p.payload.length + t) 0 =
          (be32 (crc32 (frame_body p))).getD t 0 := by
        intro t ht
        rw [hw, List.getD_append_right _ _ _ _ (by omega)]
        congr 1
        omega
      have horig_lt : ∀ t : Nat, t < 4 → w.getD (12 + p.payload.length + t) 0 < 256 := by
        intro t ht
        rw [horig t ht]
        exact be32_getD_lt ht
      have hsum : w.getD (12 + p.payload.length) 0 * 16777216 +
          w.getD (12 + p.payload.length + 1) 0 * 65536 +
          w.getD (12 + p.payload.length + 2) 0 * 256 +
          w.getD (12 + p.payload.length + 3) 0 = crc32 (frame_body p) := by
        rw [← from4be_slice]
        exact frame_stored_cksum hb h
      have hflip_lt : w.getD (i / 8) 0 ^^^ (1 <<< (i % 8)) < 256 := by
        have h8 : (256 : Nat) = 2 ^ 8 := by norm_num
        have hwj : w.getD (i / 8) 0 < 256 := by
          have : i / 8 = 12 + p.payload.length + (i / 8 - (12 + p.payload.length)) := by omega
          rw [this]
          exact horig_lt _ (by omega)
        rw [h8] at hwj hshift_lt ⊢
        exact Nat.xor_lt_two_pow hwj hshift_lt
      rw [from4be_slice]
      have ht0 : i / 8 = 12 + p.payload.length ∨ i / 8 = 12 + p.payload.length + 1 ∨
          i / 8 = 12 + p.payload.length + 2 ∨ i / 8 = 12 + p.payload.length + 3 := by
        omega
      unfold flipBit
      rcases ht0 with h0 | h0 | h0 | h0
      · rw [h0] at hflip_lt ⊢
        rw [getD_set_self (by omega), getD_set_ne (by omega), getD_set_ne (by omega),
          getD_set_ne (by omega), ← hsum]
        apply four_sum_ne hflip_lt (horig_lt 1 (by omega)) (horig_lt 2 (by omega))
          (horig_lt 3 (by omega)) (horig_lt 0 (by omega))
          (horig_lt 1 (by omega)) (horig_lt 2 (by omega)) (horig_lt 3 (by omega))
        intro hand
        exact hflip_ne _ hand.1
      · rw [h0] at hflip_lt ⊢
        rw [getD_set_ne (by omega), getD_set_self (by omega), getD_set_ne (by omega),
          getD_set_ne (by omega), ← hsum]
        apply four_sum_ne (horig_lt 0 (by omega)) hflip_lt (horig_lt 2 (by omega))
          (horig_lt 3 (by omega)) (horig_lt 0 (by omega))
          (horig_lt 1 (by omega)) (horig_lt 2 (by omega)) (horig_lt 3 (by omega))
        intro hand
        exact hflip_ne _ hand.2.1
      · rw [h0] at hflip_lt ⊢
        rw [getD_set_ne (by omega), getD_set_ne (by omega), getD_set_self (by omega),
          getD_set_ne (by omega), ← hsum]
        apply four_sum_ne (horig_lt 0 (by omega)) (horig_lt 1 (by omega)) hflip_lt
          (horig_lt 3 (by omega)) (horig_lt 0 (by omega))
          (horig_lt 1 (by omega)) (horig_lt 2 (by omega)) (horig_lt 3 (by omega))
        intro hand
        exact hflip_ne _ hand.2.2.1
      · rw [h0] at hflip_lt ⊢
        rw [getD_set_ne (by omega), getD_set_ne (by omega), getD_set_ne (by omega),
          getD_set_self (by omega), ← hsum]
        apply four_sum_ne (horig_lt 0 (by omega)) (horig_lt 1 (by omega))
          (horig_lt 2 (by omega)) hflip_lt (horig_lt 0 (by omega))
          (horig_lt 1 (by omega)) (horig_lt 2 (by omega)) (horig_lt 3 (by omega))
        intro hand
        exact hflip_ne _ hand.2.2.2

lemma serialize_cex7 : serialize_packet cex7 = some cex7_frame := by
  have hfb : frame_body cex7 = [170, 1, 0, 0, 0, 0, 0, 0, 0, 0, 0, 4] ++ cex7_payload := by
    rw [frame_body_eq]
    have hts : (pyInt ((0 : ℚ) * 1000)).toNat = 0 := by norm_num [pyInt]
    have hts0 : (pyInt (0 : ℚ)).toNat = 0 := by norm_num [pyInt]
    have hlen4 : cex7.payload.length = 4 := rfl
    have hlenp : cex7_payload.length = 4 := rfl
    show (170 : Nat) :: cex7.packet_type.toByte :: _ :: _ :: _ :: _ :: _ :: _ ::
      _ :: _ :: _ :: _ :: cex7.payload = _
    norm_num [cex7, PacketType.toByte, hts, hts0, hlen4, hlenp]
  unfold serialize_packet
  rw [if_pos (by norm_num [cex7, pyInt, cex7_payload, be32_length]), hfb]
  decide

/-- C7 counterexample: `cex7_frame` is a valid encoded frame (the image of
`cex7` under `serialize_packet`), bit 90 lies within the frame (byte 11, the
low byte of the payload_len field), yet flipping it yields a buffer that
`deserialize_packet` accepts: the truncated 12-byte prefix checksums to the
crafted payload bytes. -/
theorem c7_counterexample :
    serialize_packet cex7 = some cex7_frame ∧
    90 < 8 * cex7_frame.length ∧
    deserialize_packet (flipBit cex7_frame 90) ≠ none :=
  ⟨serialize_cex7, by decide, by decide⟩

theorem c7_amended_witness :
    (∀ b ∈ cex7.payload, b < 256) ∧ (0 : Nat) < 8 * cex7_frame.length ∧
    ((0 : Nat) / 8 < 8 ∨ 12 ≤ (0 : Nat) / 8) ∧
    deserialize_packet (flipBit cex7_frame 0) = none :=
  ⟨by decide, by decide, Or.inl (by decide),
    c7_amended cex7 cex7_frame 0 (by decide) serialize_cex7 (by decide)
      (Or.inl (by decide))⟩

/-- C8: while a test is running (`is_running = true`, which covers both the
running and the paused state, since `pause_test` leaves `is_running` set),
`configure_test` and `start_test` return `False` and leave the whole engine
state unchanged — in particular mode, packet_size, transmission_rate and
test_duration, and the metrics, pending-ack table and receiver tracker. -/
theorem c8_refuse_while_running (st : TestEngineState) (h : st.is_running = true)
    (mode : TestMode) (packet_size transmission_rate test_duration : Nat)
    (connected : Bool) :
    configure_test st mode packet_size transmission_rate test_duration = (false, st) ∧
    start_test st connected = (false, st) := by
  constructor
  · unfold configure_test
    rw [if_pos h]
  · unfold start_test
    rw [if_pos (by simp [h])]

theorem c8_refuse_while_running_witness :
    st_run.is_running = true ∧
    configure_test st_run TestMode.RECEIVER 32 5 10 = (false, st_run) ∧
    start_test st_run true = (false, st_run) :=
  ⟨rfl, (c8_refuse_while_running st_run rfl TestMode.RECEIVER 32 5 10 true).1,
    (c8_refuse_while_running st_run rfl TestMode.RECEIVER 32 5 10 true).2⟩

lemma c4_run_eval : c4_run.metrics.packets_lost = 1 ∧
    c4_run.metrics.errors = [ErrEvent.missingPacket 2] ∧ c4_run.last_sequence = 4 := by
  have h : c4_run = run_data_packets st_recv c4_packets := rfl
  rw [h]
  norm_num [run_data_packets, c4_packets, st_recv, handle_data_packet_receiver,
    missing_range, TestMetrics.empty, List.range_succ]
  decide

/-- C4 counterexample: delivering DATA packets with sequence ids 0, 1, 3, 4 to
a freshly reset receiver yields `packets_lost = 1` and `last_sequence = 4` as
the claim states, but only ONE missing-sequence error entry for id 2, not two:
the gap 1 → 3 logs `range(2, 3) = [2]`, a single entry. -/
theorem c4_counterexample :
    c4_run.metrics.packets_lost = 1 ∧ c4_run.last_sequence = 4 ∧
    ¬2 ≤ c4_run.metrics.errors.count (ErrEvent.missingPacket 2) := by
  obtain ⟨h1, h2, h3⟩ := c4_run_eval
  refine ⟨h1, h3, ?_⟩
  rw [h2]
  decide

/-- C4 amended: the run yields `packets_lost = 1`, exactly one
missing-sequence error entry (for id 2), and `last_sequence = 4`. -/
theorem c4_amended :
    c4_run.metrics.packets_lost = 1 ∧
    c4_run.metrics.errors.count (ErrEvent.missingPacket 2) = 1 ∧
    c4_run.metrics.errors.length = 1 ∧
    c4_run.last_sequence = 4 := by
  obtain ⟨h1, h2, h3⟩ := c4_run_eval
  refine ⟨h1, ?_, ?_, h3⟩
  · rw [h2]
    decide
  · rw [h2]
    rfl

lemma key_unique {l : List (Nat × ℚ)} (h : (l.map Prod.fst).Nodup) {a : Nat} {b c : ℚ}
    (h1 : (a, b) ∈ l) (h2 : (a, c) ∈ l) : b = c := by
  induction l with
  | nil => cases h1
  | cons x xs ih =>
    rw [List.map_cons, List.nodup_cons] at h
    rcases List.mem_cons.mp h1 with hb | hb <;> rcases List.mem_cons.mp h2 with hc | hc
    · rw [← hb] at hc
      exact congrArg Prod.snd hc.symm
    · exfalso
      apply h.1
      rw [← hb]
      exact List.mem_map.mpr ⟨(a, c), hc, rfl⟩
    · exfalso
      apply h.1
      rw [← hc]
      exact List.mem_map.mpr ⟨(a, b), hb, rfl⟩
    · exact ih h.2 hb hc

lemma ackTimeout_injective : Function.Injective ErrEvent.ackTimeout := by
  intro a b h
  cases h
  rfl

/-- C5: in originator (transmitter) mode, an entry of the Pending-Ack Table
whose age exceeds the ack timeout is removed by the sweep, `packets_lost` grows
by the number of timed-out entries, exactly one `ACK timeout` error entry is
logged for that sequence id, and any sweep on a state that no longer holds the
sequence id neither logs it again nor reintroduces it — so no entry is ever
resolved twice. -/
theorem c5_ack_timeout_once (st : TestEngineState) (now : ℚ) (seq : Nat) (t : ℚ)
    (hnodup : (st.pending_acks.map Prod.fst).Nodup)
    (hmem : (seq, t) ∈ st.pending_acks)
    (htime : now - t > 5) :
    (∀ t' : ℚ, (seq, t') ∉ (check_ack_timeouts st now).pending_acks) ∧
    (check_ack_timeouts st now).metrics.packets_lost =
      st.metrics.packets_lost +
        (st.pending_acks.filter (fun e => decide (now - e.2 > 5))).length ∧
    (check_ack_timeouts st now).metrics.errors.count (ErrEvent.ackTimeout seq) =
      st.metrics.errors.count (ErrEvent.ackTimeout seq) + 1 ∧
    (∀ (st2 : TestEngineState) (now2 : ℚ),
      (∀ t' : ℚ, (seq, t') ∉ st2.pending_acks) →
      (check_ack_timeouts st2 now2).metrics.errors.count (ErrEvent.ackTimeout seq) =
        st2.metrics.errors.count (ErrEvent.ackTimeout seq) ∧
      (∀ t' : ℚ, (seq, t') ∉ (check_ack_timeouts st2 now2).pending_acks)) := by
  refine ⟨?_, ?_, ?_, ?_⟩
  · intro t' hmem'
    simp only [check_ack_timeouts] at hmem'
    rw [List.mem_filter] at hmem'
    have ht' : t' = t := key_unique hnodup hmem'.1 hmem
    rw [ht'] at hmem'
    have := hmem'.2
    simp only [decide_not, Bool.not_eq_true', decide_eq_false_iff_not] at this
    exact this htime
  · simp [check_ack_timeouts]
  · simp only [check_ack_timeouts, List.count_append]
    rw [List.count_map_of_injective _ _ ackTimeout_injective]
    have hle : ((st.pending_acks.filter (fun e => decide (now - e.2 > 5))).map
        Prod.fst).count seq ≤ 1 := by
      refine le_trans (List.Sublist.count_le ?_ seq)
        (List.nodup_iff_count_le_one.mp hnodup seq)
      exact List.Sublist.map Prod.fst (List.filter_sublist st.pending_acks)
    have hge : 0 < ((st.pending_acks.filter (fun e => decide (now - e.2 > 5))).map
        Prod.fst).count seq := by
      rw [List.count_pos_iff]
      exact List.mem_map.mpr
        ⟨(seq, t), List.mem_filter.mpr ⟨hmem, by simpa using htime⟩, rfl⟩
    omega
  · intro st2 now2 h2
    constructor
    · have hz : (((st2.pending_acks.filter (fun e => decide (now2 - e.2 > 5))).map
          Prod.fst).map ErrEvent.ackTimeout).count (ErrEvent.ackTimeout seq) = 0 := by
        rw [List.count_eq_zero]
        intro hmem'
        rw [List.mem_map] at hmem'
        obtain ⟨k, hk, heq⟩ := hmem'
        have hk1 : k = seq := ackTimeout_injective heq
        rw [List.mem_map] at hk
        obtain ⟨e, he, hef⟩ := hk
        have hepend : e ∈ st2.pending_acks := List.mem_of_mem_filter he
        have hfin : (seq, e.2) ∈ st2.pending_acks := by
          rw [show (seq, e.2) = e by rw [← hk1, ← hef]]
          exact hepend
        exact h2 e.2 hfin
      simp only [check_ack_timeouts, List.count_append, hz, Nat.add_zero]
    · intro t' hmem'
      simp only [check_ack_timeouts] at hmem'
      rw [List.mem_filter] at hmem'
      exact h2 t' hmem'.1

theorem c5_ack_timeout_once_witness :
    (st_pend.pending_acks.map Prod.fst).Nodup ∧
    ((0 : Nat), (0 : ℚ)) ∈ st_pend.pending_acks ∧ ((6 : ℚ) - 0 > 5) ∧
    (∀ t' : ℚ, ((0 : Nat), t') ∉ (check_ack_timeouts st_pend 6).pending_acks) ∧
    (check_ack_timeouts st_pend 6).metrics.packets_lost =
      st_pend.metrics.packets_lost +
        (st_pend.pending_acks.filter (fun e => decide ((6 : ℚ) - e.2 > 5))).length ∧
    (check_ack_timeouts st_pend 6).metrics.errors.count (ErrEvent.ackTimeout 0) =
      st_pend.metrics.errors.count (ErrEvent.ackTimeout 0) + 1 := by
  have h := c5_ack_timeout_once st_pend 6 0 0 (by simp [st_pend]) (by simp [st_pend])
    (by norm_num)
  exact ⟨by simp [st_pend], by simp [st_pend], by norm_num, h.1, h.2.1, h.2.2.1⟩

/-! Step lemmas for the receiver-side handler. -/

lemma handle_last (st : TestEngineState) (p : Packet) (t : ℚ) :
    (handle_data_packet_receiver st p t).last_sequence =
      max st.last_sequence (p.sequence_id : Int) := by
  simp only [handle_data_packet_receiver]
  split_ifs <;> rfl

lemma handle_errors (st : TestEngineState) (p : Packet) (t : ℚ) :
    (handle_data_packet_receiver st p t).metrics.errors =
      st.metrics.errors ++
        (if (p.sequence_id : Int) > st.last_sequence + 1 then
          missing_range (st.last_sequence + 1) p.sequence_id else []) := by
  simp only [handle_data_packet_receiver]
  split_ifs <;> simp

lemma run_cons (st : TestEngineState) (x : Packet × ℚ) (l : List (Packet × ℚ)) :
    run_data_packets st (x :: l) =
      run_data_packets (handle_data_packet_receiver st x.1 x.2) l := rfl

lemma run_append (st : TestEngineState) (l1 l2 : List (Packet × ℚ)) :
    run_data_packets st (l1 ++ l2) = run_data_packets (run_data_packets st l1) l2 := by
  simp [run_data_packets, List.foldl_append]

lemma count_range_map (n : Nat) (a id : Int) :
    ((List.range n).map (fun (k : Nat) => ErrEvent.missingPacket (a + (k : Int)))).count
      (ErrEvent.missingPacket id) = if a ≤ id ∧ id < a + n then 1 else 0 := by
  induction n with
  | zero =>
    simp only [List.range_zero, List.map_nil, List.count_nil]
    rw [if_neg (by omega)]
  | succ m ih =>
    rw [List.range_succ, List.map_append, List.count_append, ih]
    have hsingle : (([m] : List Nat).map
        (fun (k : Nat) => ErrEvent.missingPacket (a + (k : Int)))).count
        (ErrEvent.missingPacket id) = if a + (m : Int) = id then 1 else 0 := by
      rw [List.map_cons, List.map_nil, List.count_singleton]
      by_cases heq : a + (m : Int) = id
      · rw [if_pos heq, if_pos (by simp [heq])]
      · rw [if_neg heq, if_neg (by simp [heq])]
    rw [hsingle]
    by_cases h1 : a ≤ id ∧ id < a + (m : Int)
    · rw [if_pos h1]
      by_cases h2 : a + (m : Int) = id
      · omega
      · rw [if_neg h2, if_pos (by push_cast; omega)]
    · rw [if_neg h1]
      by_cases h2 : a + (m : Int) = id
      · rw [if_pos h2, if_pos (by push_cast; omega)]
      · rw [if_neg h2, if_neg (by push_cast; omega)]

lemma count_missing_range (a b id : Int) :
    (missing_range a b).count (ErrEvent.missingPacket id) =
      if a ≤ id ∧ id < b then 1 else 0 := by
  unfold missing_range
  rw [count_range_map]
  split_ifs <;> first | rfl | omega

lemma run_inv (l : List (Packet × ℚ)) : ∀ st : TestEngineState,
    (∀ id : Int, st.metrics.errors.count (ErrEvent.missingPacket id) ≤ 1 ∧
      (0 < st.metrics.errors.count (ErrEvent.missingPacket id) → id < st.last_sequence)) →
    ∀ id : Int,
      (run_data_packets st l).metrics.errors.count (ErrEvent.missingPacket id) ≤ 1 ∧
      (0 < (run_data_packets st l).metrics.errors.count (ErrEvent.missingPacket id) →
        id < (run_data_packets st l).last_sequence) := by
  induction l with
  | nil => intro st h id; exact h id
  | cons x xs ih =>
    intro st h id
    rw [run_cons]
    apply ih
    intro id'
    rw [handle_errors, handle_last, List.count_append]
    obtain ⟨hc1, hc2⟩ := h id'
    by_cases hgap : (x.1.sequence_id : Int) > st.last_sequence + 1
    · rw [if_pos hgap, count_missing_range]
      constructor
      · split_ifs with hin
        · have hz : st.metrics.errors.count (ErrEvent.missingPacket id') = 0 := by
            by_contra hnz
            have := hc2 (by omega)
            omega
          omega
        · omega
      · intro hpos
        split_ifs at hpos with hin
        · exact lt_of_lt_of_le (by omega) (le_max_right _ _)
        · exact lt_of_lt_of_le (hc2 (by omega)) (le_max_left _ _)
    · rw [if_neg hgap]
      simp only [List.count_nil, Nat.add_zero]
      exact ⟨hc1, fun hpos => lt_of_lt_of_le (hc2 hpos) (le_max_left _ _)⟩

lemma run_count_preserved (l : List (Packet × ℚ)) : ∀ (st : TestEngineState) (id : Int),
    id < st.last_sequence →
    (run_data_packets st l).metrics.errors.count (ErrEvent.missingPacket id) =
      st.metrics.errors.count (ErrEvent.missingPacket id) ∧
    id < (run_data_packets st l).last_sequence := by
  induction l with
  | nil => intro st id h; exact ⟨rfl, h⟩
  | cons x xs ih =>
    intro st id h
    rw [run_cons]
    have hstep : (handle_data_packet_receiver st x.1 x.2).metrics.errors.count
        (ErrEvent.missingPacket id) = st.metrics.errors.count (ErrEvent.missingPacket id) := by
      rw [handle_errors, List.count_append]
      by_cases hgap : (x.1.sequence_id : Int) > st.last_sequence + 1
      · rw [if_pos hgap, count_missing_range, if_neg (by omega)]
        omega
      · rw [if_neg hgap]
        simp

    have hlast : id < (handle_data_packet_receiver st x.1 x.2).last_sequence := by
      rw [handle_last]
      exact lt_of_lt_of_le h (le_max_left _ _)
    obtain ⟨h1, h2⟩ := ih (handle_data_packet_receiver st x.1 x.2) id hlast
    exact ⟨by rw [h1, hstep], h2⟩

/-- C9: over any run of DATA packets through the responder-side handler from a
freshly reset tracker, `last_sequence` is updated to the max of its previous
value and the incoming sequence id (hence never decreases), and every id
strictly between `last_sequence + 1` and the incoming sequence id is logged as
missing exactly once — at the step where the gap is discovered, with no
occurrence before it and none added by any later step. -/
theorem c9_gap_accounting (base : TestEngineState) (l : List (Packet × ℚ)) (i : Nat)
    (hi : i < l.length) :
    (run_data_packets (reset_metrics base) (l.take (i + 1))).last_sequence =
      max (run_data_packets (reset_metrics base) (l.take i)).last_sequence
        ((l.get ⟨i, hi⟩).1.sequence_id : Int) ∧
    ∀ id : Int,
      (run_data_packets (reset_metrics base) (l.take i)).last_sequence + 1 < id →
      id < ((l.get ⟨i, hi⟩).1.sequence_id : Int) →
      (run_data_packets (reset_metrics base) (l.take i)).metrics.errors.count
          (ErrEvent.missingPacket id) = 0 ∧
      (run_data_packets (reset_metrics base) (l.take (i + 1))).metrics.errors.count
          (ErrEvent.missingPacket id) = 1 ∧
      (run_data_packets (reset_metrics base) l).metrics.errors.count
          (ErrEvent.missingPacket id) = 1 := by
  have htake : l.take (i + 1) = l.take i ++ [l.get ⟨i, hi⟩] := by
    rw [List.take_succ]
    congr 1
    rw [List.getElem?_eq_getElem hi]
    rfl
  have hrun1 : run_data_packets (reset_metrics base) (l.take (i + 1)) =
      handle_data_packet_receiver (run_data_packets (reset_metrics base) (l.take i))
        (l.get ⟨i, hi⟩).1 (l.get ⟨i, hi⟩).2 := by
    rw [htake, run_append]
    rfl
  have hinv := run_inv (l.take i) (reset_metrics base)
    (by
      intro id
      simp [reset_metrics, TestMetrics.empty])
  constructor
  · rw [hrun1, handle_last]
  · intro id hlow hhigh
    have hcount0 : (run_data_packets (reset_metrics base) (l.take i)).metrics.errors.count
        (ErrEvent.missingPacket id) = 0 := by
      by_contra hnz
      have := (hinv id).2 (by omega)
      omega
    have hcount1 : (run_data_packets (reset_metrics base) (l.take (i + 1))).metrics.errors.count
        (ErrEvent.missingPacket id) = 1 := by
      rw [hrun1, handle_errors, List.count_append, hcount0,
        if_pos (by omega), count_missing_range, if_pos (by omega)]
    refine ⟨hcount0, hcount1, ?_⟩
    have hsplit : l = l.take (i + 1) ++ l.drop (i + 1) := (List.take_append_drop _ l).symm
    have hlast1 : id < (run_data_packets (reset_metrics base) (l.take (i + 1))).last_sequence := by
      rw [hrun1, handle_last]
      exact lt_of_lt_of_le hhigh (le_max_right _ _)
    have hpres := run_count_preserved (l.drop (i + 1))
      (run_data_packets (reset_metrics base) (l.take (i + 1))) id hlast1
    have hfull : run_data_packets (reset_metrics base) l =
        run_data_packets (run_data_packets (reset_metrics base) (l.take (i + 1)))
          (l.drop (i + 1)) := by
      conv_lhs => rw [hsplit]
      rw [run_append]
    rw [hfull, hpres.1, hcount1]

theorem c9_gap_accounting_witness :
    (1 < c9_l.length) ∧
    ((run_data_packets (reset_metrics st_recv) (c9_l.take 1)).last_sequence + 1 < 3) ∧
    ((3 : Int) < ((c9_l.get ⟨1, by decide⟩).1.sequence_id : Int)) ∧
    ((run_data_packets (reset_metrics st_recv) (c9_l.take 1)).metrics.errors.count
        (ErrEvent.missingPacket 3) = 0 ∧
      (run_data_packets (reset_metrics st_recv) (c9_l.take (1 + 1))).metrics.errors.count
        (ErrEvent.missingPacket 3) = 1 ∧
      (run_data_packets (reset_metrics st_recv) c9_l).metrics.errors.count
        (ErrEvent.missingPacket 3) = 1) := by
  have hlast : (run_data_packets (reset_metrics st_recv) (c9_l.take 1)).last_sequence = 0 := by
    have h1 : run_data_packets (reset_metrics st_recv) (c9_l.take 1) =
        handle_data_packet_receiver (reset_metrics st_recv) ⟨.DATA, 0, 0, []⟩ 1 := rfl
    rw [h1, handle_last]
    norm_num [reset_metrics, st_recv]
  have h := c9_gap_accounting st_recv c9_l 1 (by decide)
  exact ⟨by decide, by rw [hlast]; norm_num, by decide,
    h.2 3 (by rw [hlast]; norm_num) (by decide)⟩

/-! Unfolding principles for the stream reassembler. -/

lemma parse_buffer_loop_fuel : ∀ (fuel fuel' : Nat) (buf : List Nat),
    buf.length < fuel → buf.length < fuel' →
    parse_buffer_loop fuel buf = parse_buffer_loop fuel' buf := by
  intro fuel
  induction fuel with
  | zero =>
    intro fuel' buf h
    omega
  | succ f ih =>
    intro fuel' buf h h'
    cases fuel' with
    | zero => omega
    | succ f' =>
      simp only [parse_buffer_loop, HEADER_SIZE, FOOTER_SIZE]
      by_cases h16 : buf.length < 12 + 4
      · rw [if_pos h16, if_pos h16]
      · rw [if_neg h16, if_neg h16]
        cases hf : buf.findIdx? (fun b => b == MAGIC_BYTE) with
        | none => rfl
        | some i =>
          dsimp only
          by_cases h12 : (buf.drop i).length < 12
          · rw [if_pos h12, if_pos h12]
          · rw [if_neg h12, if_neg h12]
            by_cases htot : (buf.drop i).length <
                12 + from4be (((buf.drop i).drop 8).take 4) + 4
            · rw [if_pos htot, if_pos htot]
            · rw [if_neg htot, if_neg htot]
              have hlen1 : ((buf.drop i).drop
                  (12 + from4be (((buf.drop i).drop 8).take 4) + 4)).length < f := by
                simp only [List.length_drop] at *
                omega
              have hlen1' : ((buf.drop i).drop
                  (12 + from4be (((buf.drop i).drop 8).take 4) + 4)).length < f' := by
                simp only [List.length_drop] at *
                omega
              have hlen2 : ((buf.drop i).drop 1).length < f := by
                simp only [List.length_drop] at *
                omega
              have hlen2' : ((buf.drop i).drop 1).length < f' := by
                simp only [List.length_drop] at *
                omega
              cases hdec : deserialize_packet ((buf.drop i).take
                  (12 + from4be (((buf.drop i).drop 8).take 4) + 4)) with
              | some p => rw [ih f' _ hlen1 hlen1']
              | none => exact ih f' _ hlen2 hlen2'

lemma parse_buffer_eq (buf : List Nat) : parse_buffer buf =
    if buf.length < 16 then ([], buf)
    else
      match buf.findIdx? (fun b => b == 170) with
      | none => ([], [])
      | some magic_index =>
        if (buf.drop magic_index).length < 12 then ([], buf.drop magic_index)
        else
          if (buf.drop magic_index).length <
              12 + from4be (((buf.drop magic_index).drop 8).take 4) + 4 then
            ([], buf.drop magic_index)
          else
            match deserialize_packet ((buf.drop magic_index).take
                (12 + from4be (((buf.drop magic_index).drop 8).take 4) + 4)) with
            | some p =>
              ((p :: (parse_buffer ((buf.drop magic_index).drop
                  (12 + from4be (((buf.drop magic_index).drop 8).take 4) + 4))).1),
                (parse_buffer ((buf.drop magic_index).drop
                  (12 + from4be (((buf.drop magic_index).drop 8).take 4) + 4))).2)
            | none => parse_buffer ((buf.drop magic_index).drop 1) := by
  show parse_buffer_loop (buf.length + 1) buf = _
  simp only [parse_buffer_loop, HEADER_SIZE, FOOTER_SIZE, MAGIC_BYTE]
  by_cases h16 : buf.length < 12 + 4
  · rw [if_pos h16, if_pos (show buf.length < 16 by omega)]
  · rw [if_neg h16, if_neg (show ¬buf.length < 16 by omega)]
    cases hf : buf.findIdx? (fun b => b == 170) with
    | none => rfl
    | some i =>
      dsimp only
      by_cases h12 : (buf.drop i).length < 12
      · rw [if_pos h12, if_pos h12]
      · rw [if_neg h12, if_neg h12]
        by_cases htot : (buf.drop i).length <
            12 + from4be (((buf.drop i).drop 8).take 4) + 4
        · rw [if_pos htot, if_pos htot]
        · rw [if_neg htot, if_neg htot]
          have hlen1 : ((buf.drop i).drop
              (12 + from4be (((buf.drop i).drop 8).take 4) + 4)).length < buf.length := by
            simp only [List.length_drop] at *
            omega
          have hlen2 : ((buf.drop i).drop 1).length < buf.length := by
            simp only [List.length_drop] at *
            omega
          cases hdec : deserialize_packet ((buf.drop i).take
              (12 + from4be (((buf.drop i).drop 8).take 4) + 4)) with
          | some p =>
            rw [show parse_buffer_loop buf.length ((buf.drop i).drop
                (12 + from4be (((buf.drop i).drop 8).take 4) + 4)) =
              parse_buffer ((buf.drop i).drop
                (12 + from4be (((buf.drop i).drop 8).take 4) + 4)) from
              parse_buffer_loop_fuel _ _ _ hlen1 (by omega)]
          | none =>
            exact parse_buffer_loop_fuel _ _ _ hlen2 (by omega)

lemma findIdx?_no_magic : ∀ (g : List Nat), (∀ b ∈ g, ¬(b = 170)) →
    ∀ i : Nat, g.findIdx? (fun b => b == 170) i = none := by
  intro g
  induction g with
  | nil => intro _ i; rfl
  | cons x xs ih =>
    intro h i
    rw [List.findIdx?_cons,
      if_neg (by simp only [beq_iff_eq]; exact h x (List.mem_cons_self x xs))]
    exact ih (fun b hb => h b (List.mem_cons_of_mem _ hb)) (i + 1)

lemma findIdx?_magic_at : ∀ (g t' : List Nat) (i : Nat), (∀ b ∈ g, ¬(b = 170)) →
    (g ++ 170 :: t').findIdx? (fun b => b == 170) i = some (g.length + i) := by
  intro g
  induction g with
  | nil =>
    intro t' i _
    rw [List.nil_append, List.findIdx?_cons, if_pos (by simp)]
    simp
  | cons x xs ih =>
    intro t' i hg
    rw [List.cons_append, List.findIdx?_cons,
      if_neg (by simp only [beq_iff_eq]; exact hg x (List.mem_cons_self x xs)),
      ih t' (i + 1) (fun b hb => hg b (List.mem_cons_of_mem _ hb))]
    congr 1
    simp only [List.length_cons]
    omega

lemma frame_head_cons {p : Packet} {w : List Nat} (h : serialize_packet p = some w) :
    ∃ t', w = 170 :: t' :=
  ⟨_, frame_cons_form h⟩

lemma prefix_size_field {p : Packet} {w : List Nat} (h : serialize_packet p = some w)
    {m : Nat} (hm : 12 ≤ m) :
    from4be (((w.take m).drop 8).take 4) = p.payload.length := by
  rw [from4be_slice]
  rw [getD_take _ (show 8 < m by omega), getD_take _ (show 8 + 1 < m by omega),
    getD_take _ (show 8 + 2 < m by omega), getD_take _ (show 8 + 3 < m by omega),
    ← from4be_slice]
  exact frame_size_field h

lemma append_size_field {p : Packet} {w : List Nat} (h : serialize_packet p = some w)
    (u : List Nat) :
    from4be (((w ++ u).drop 8).take 4) = p.payload.length := by
  have hwlen : w.length = 16 + p.payload.length := frame_length_of_serialize h
  rw [from4be_slice]
  rw [List.getD_append _ _ _ _ (by omega), List.getD_append _ _ _ _ (by omega),
    List.getD_append _ _ _ _ (by omega), List.getD_append _ _ _ _ (by omega),
    ← from4be_slice]
  exact frame_size_field h

lemma parse_prefix_stall {p : Packet} {w : List Nat} (hser : serialize_packet p = some w)
    {m : Nat} (hm : m < w.length) :
    parse_buffer (w.take m) = ([], w.take m) := by
  have hwlen : w.length = 16 + p.payload.length := frame_length_of_serialize hser
  rw [parse_buffer_eq]
  by_cases h16 : (w.take m).length < 16
  · rw [if_pos h16]
  · rw [if_neg h16]
    obtain ⟨t', hw⟩ := frame_head_cons hser
    have hlen : (w.take m).length = m := by
      rw [List.length_take]
      omega
    rw [hlen] at h16
    obtain ⟨m', rfl⟩ : ∃ m'', m = m'' + 1 := ⟨m - 1, by omega⟩
    have htake : w.take (m' + 1) = 170 :: t'.take m' := by
      rw [hw, List.take_succ_cons]
    rw [show (w.take (m' + 1)).findIdx? (fun b => b == 170) = some 0 by
      rw [htake, List.findIdx?_cons, if_pos (by simp)]]
    dsimp only
    rw [List.drop_zero]
    rw [if_neg (by rw [hlen]; omega)]
    rw [prefix_size_field hser (by omega)]
    rw [if_pos (by rw [hlen]; omega)]

lemma parse_frame_cons {p q : Packet} {w : List Nat} (hser : serialize_packet p = some w)
    (hdec : deserialize_packet w = some q) (u : List Nat) :
    parse_buffer (w ++ u) = ((q :: (parse_buffer u).1), (parse_buffer u).2) := by
  have hwlen : w.length = 16 + p.payload.length := frame_length_of_serialize hser
  obtain ⟨t', hw⟩ := frame_head_cons hser
  have hlen : (w ++ u).length = 16 + p.payload.length + u.length := by
    rw [List.length_append, hwlen]
  rw [parse_buffer_eq]
  rw [if_neg (by rw [hlen]; omega)]
  rw [show (w ++ u).findIdx? (fun b => b == 170) = some 0 by
    rw [hw, List.cons_append, List.findIdx?_cons, if_pos (by simp)]]
  dsimp only
  rw [List.drop_zero]
  rw [if_neg (by rw [hlen]; omega)]
  rw [append_size_field hser u]
  rw [if_neg (by rw [hlen]; omega)]
  rw [show (w ++ u).take (12 + p.payload.length + 4) = w from List.take_left' (by omega)]
  rw [hdec]
  dsimp only
  rw [show (w ++ u).drop (12 + p.payload.length + 4) = u from List.drop_left' (by omega)]

lemma parse_garbage_strip {g t' : List Nat} (hg : ∀ b ∈ g, ¬(b = 170))
    (h16 : 16 ≤ g.length + (170 :: t').length) :
    parse_buffer (g ++ 170 :: t') = parse_buffer (170 :: t') := by
  rw [parse_buffer_eq (g ++ 170 :: t')]
  rw [if_neg (by rw [List.length_append]; omega)]
  rw [show (g ++ 170 :: t').findIdx? (fun b => b == 170) = some g.length by
    have := findIdx?_magic_at g t' 0 hg
    simpa using this]
  dsimp only
  rw [List.drop_left' rfl]
  rw [parse_buffer_eq (170 :: t')]
  by_cases h16' : (170 :: t').length < 16
  · rw [if_pos h16']
    by_cases h12 : (170 :: t').length < 12
    · rw [if_pos h12]
    · rw [if_neg h12, if_pos (by omega)]
  · rw [if_neg h16']
    rw [show (170 :: t').findIdx? (fun b => b == 170) = some 0 by
      rw [List.findIdx?_cons, if_pos (by simp)]]
    dsimp only
    rw [List.drop_zero]

lemma parse_empty : parse_buffer ([] : List Nat) = ([], []) := by
  rw [parse_buffer_eq]
  rfl

lemma parse_full_frame {p q : Packet} {w : List Nat} (hser : serialize_packet p = some w)
    (hdec : deserialize_packet w = some q) : parse_buffer w = ([q], []) := by
  conv_lhs => rw [show w = w ++ ([] : List Nat) from (List.append_nil w).symm]
  rw [parse_frame_cons hser hdec, parse_empty]

lemma parse_ff {p1 p2 q1 q2 : Packet} {f1 f2 : List Nat}
    (hs1 : serialize_packet p1 = some f1) (hs2 : serialize_packet p2 = some f2)
    (hd1 : deserialize_packet f1 = some q1) (hd2 : deserialize_packet f2 = some q2)
    (r : Nat) :
    (r < f1.length → parse_buffer ((f1 ++ f2).take r) = ([], f1.take r)) ∧
    (f1.length ≤ r → r < f1.length + f2.length →
      parse_buffer ((f1 ++ f2).take r) = ([q1], f2.take (r - f1.length))) ∧
    (r = f1.length + f2.length → parse_buffer ((f1 ++ f2).take r) = ([q1, q2], [])) := by
  refine ⟨?_, ?_, ?_⟩
  · intro hr
    have hsplit : (f1 ++ f2).take r = f1.take r := by
      rw [List.take_append_eq_append_take, show r - f1.length = 0 by omega, List.take_zero,
        List.append_nil]
    rw [hsplit]
    exact parse_prefix_stall hs1 hr
  · intro hr1 hr2
    have hsplit : (f1 ++ f2).take r = f1 ++ f2.take (r - f1.length) := by
      rw [List.take_append_eq_append_take, List.take_of_length_le (by omega)]
    rw [hsplit, parse_frame_cons hs1 hd1,
      parse_prefix_stall hs2 (show r - f1.length < f2.length by omega)]
  · intro hr
    have hsplit : (f1 ++ f2).take r = f1 ++ f2 :=
      List.take_of_length_le (by rw [List.length_append]; omega)
    rw [hsplit, parse_frame_cons hs1 hd1, parse_full_frame hs2 hd2]

lemma c3Pkts_mono {gL L1 L2 d d' : Nat} (q1 q2 : Packet) (h : d ≤ d') :
    c3Pkts gL L1 L2 q1 q2 d ++
      (c3Pkts gL L1 L2 q1 q2 d').drop (c3Pkts gL L1 L2 q1 q2 d).length =
      c3Pkts gL L1 L2 q1 q2 d' := by
  unfold c3Pkts
  split_ifs <;> first | rfl | omega | simp

lemma slice_len {S : List Nat} {d m : Nat} (hd : d ≤ m) (hm : m ≤ S.length) :
    ((S.drop d).take (m - d)).length = m - d := by
  rw [List.length_take, List.length_drop]
  omega

lemma slice_append {S : List Nat} {d m m' : Nat} (hd : d ≤ m) (hm : m ≤ m') :
    (S.drop d).take (m - d) ++ (S.drop m).take (m' - m) = (S.drop d).take (m' - d) := by
  have hdrop : S.drop m = ((S.drop d).drop (m - d)) := by
    rw [List.drop_drop]
    congr 1
    omega
  rw [hdrop, show m' - d = (m - d) + (m' - m) by omega, List.take_add]

lemma c3_step {G f1 f2 : List Nat} {p1 p2 q1 q2 : Packet}
    (hG : ∀ b ∈ G, ¬(b = 170))
    (hs1 : serialize_packet p1 = some f1) (hs2 : serialize_packet p2 = some f2)
    (hd1 : deserialize_packet f1 = some q1) (hd2 : deserialize_packet f2 = some q2)
    {d m m' : Nat} (hv : c3Valid G.length f1.length f2.length d m)
    (hmm' : m ≤ m') (hm'le : m' ≤ G.length + f1.length + f2.length) :
    ∃ d', c3Valid G.length f1.length f2.length d' m' ∧ d ≤ d' ∧
      parse_buffer (((G ++ f1 ++ f2).drop d).take (m' - d)) =
        ((c3Pkts G.length f1.length f2.length q1 q2 d').drop
            (c3Pkts G.length f1.length f2.length q1 q2 d).length,
          ((G ++ f1 ++ f2).drop d').take (m' - d')) := by
  obtain ⟨hdm, hmle, hcase⟩ := hv
  have hL1 : f1.length = 16 + p1.payload.length := frame_length_of_serialize hs1
  have hL2 : f2.length = 16 + p2.payload.length := frame_length_of_serialize hs2
  have hlenS : (G ++ f1 ++ f2).length = G.length + f1.length + f2.length := by
    simp only [List.length_append]
  have hdropG : (G ++ f1 ++ f2).drop G.length = f1 ++ f2 := by
    rw [List.append_assoc]
    exact List.drop_left' rfl
  have hdropGF : (G ++ f1 ++ f2).drop (G.length + f1.length) = f2 :=
    List.drop_left' (by rw [List.length_append])
  have hpk0 : ∀ e, e ≤ G.length → c3Pkts G.length f1.length f2.length q1 q2 e = [] := by
    intro e he
    unfold c3Pkts
    rw [if_pos (by omega)]
  have hpk1 : c3Pkts G.length f1.length f2.length q1 q2 (G.length + f1.length) = [q1] := by
    unfold c3Pkts
    rw [if_neg (by omega), if_pos (by omega)]
  have hpk2 : c3Pkts G.length f1.length f2.length q1 q2
      (G.length + f1.length + f2.length) = [q1, q2] := by
    unfold c3Pkts
    rw [if_neg (by omega), if_neg (by omega)]
  have hcore : ∀ n' : Nat, G.length ≤ n' → n' ≤ G.length + f1.length + f2.length →
      ∃ d', c3Valid G.length f1.length f2.length d' n' ∧ G.length ≤ d' ∧
        parse_buffer ((f1 ++ f2).take (n' - G.length)) =
          (c3Pkts G.length f1.length f2.length q1 q2 d',
            ((G ++ f1 ++ f2).drop d').take (n' - d')) := by
    intro n' hn1 hn2
    obtain hff := parse_ff hs1 hs2 hd1 hd2 (n' - G.length)
    by_cases hr1 : n' - G.length < f1.length
    · refine ⟨G.length, ⟨by omega, hn2, Or.inr (Or.inl ⟨rfl, by omega⟩)⟩, le_refl _, ?_⟩
      rw [hff.1 hr1, hpk0 G.length (le_refl _), hdropG]
      rw [show (f1 ++ f2).take (n' - G.length) = f1.take (n' - G.length) by
        rw [List.take_append_eq_append_take, show n' - G.length - f1.length = 0 by omega,
          List.take_zero, List.append_nil]]
    · by_cases hr2 : n' - G.length < f1.length + f2.length
      · refine ⟨G.length + f1.length,
          ⟨by omega, hn2, Or.inr (Or.inr (Or.inl ⟨rfl, by omega⟩))⟩, by omega, ?_⟩
        rw [hff.2.1 (by omega) hr2, hpk1, hdropGF]
        rw [show f2.take (n' - (G.length + f1.length)) =
          f2.take (n' - G.length - f1.length) by congr 1; omega]
      · refine ⟨G.length + f1.length + f2.length,
          ⟨by omega, hn2, Or.inr (Or.inr (Or.inr ⟨rfl, by omega⟩))⟩, by omega, ?_⟩
        rw [hff.2.2 (by omega), hpk2]
        rw [show ((G ++ f1 ++ f2).drop (G.length + f1.length + f2.length)).take
            (n' - (G.length + f1.length + f2.length)) = [] by
          rw [show n' - (G.length + f1.length + f2.length) = 0 by omega, List.take_zero]]
  rcases hcase with ⟨hdg, hsmall⟩ | ⟨hdeq, hmlt⟩ | ⟨hdeq, hmlt⟩ | ⟨hdeq, hmeq⟩
  · -- front of the buffer may still hold garbage
    by_cases hA1 : m' - d < 16
    · refine ⟨d, ⟨by omega, hm'le, Or.inl ⟨hdg, hA1⟩⟩, le_refl _, ?_⟩
      rw [parse_buffer_eq,
        if_pos (by rw [slice_len (by omega) (by rw [hlenS]; omega)]; exact hA1)]
      simp [List.drop_length]
    · by_cases hA2 : m' ≤ G.length
      · -- nothing but garbage: the buffer is cleared
        refine ⟨m', ⟨by omega, hm'le, Or.inl ⟨hA2, by omega⟩⟩, by omega, ?_⟩
        have hslice : ((G ++ f1 ++ f2).drop d).take (m' - d) = (G.drop d).take (m' - d) := by
          rw [List.append_assoc, List.drop_append_eq_append_drop,
            show d - G.length = 0 by omega, List.drop_zero,
            List.take_append_eq_append_take,
            show m' - d - (G.drop d).length = 0 by rw [List.length_drop]; omega,
            List.take_zero, List.append_nil]
        rw [hslice, parse_buffer_eq,
          if_neg (by rw [List.length_take, List.length_drop]; omega),
          findIdx?_no_magic _
            (fun b hb => hG b (List.drop_subset _ _ (List.take_subset _ _ hb))) 0]
        rw [hpk0 m' hA2, hpk0 d (by omega)]
        simp
      · -- garbage followed by frame bytes: strip the garbage and use the core
        obtain ⟨d', hval, hdle, hparse⟩ := hcore m' (by omega) hm'le
        refine ⟨d', hval, by omega, ?_⟩
        have hslice : ((G ++ f1 ++ f2).drop d).take (m' - d) =
            G.drop d ++ (f1 ++ f2).take (m' - G.length) := by
          rw [List.append_assoc, List.drop_append_eq_append_drop,
            show d - G.length = 0 by omega, List.drop_zero,
            List.take_append_eq_append_take,
            List.take_of_length_le (by rw [List.length_drop]; omega)]
          congr 2
          rw [List.length_drop]
          omega
        obtain ⟨t1, hf1c⟩ := frame_head_cons hs1
        have htc : (f1 ++ f2).take (m' - G.length) =
            170 :: (t1 ++ f2).take (m' - G.length - 1) := by
          rw [hf1c, List.cons_append]
          obtain ⟨k, hk⟩ : ∃ k, m' - G.length = k + 1 := ⟨m' - G.length - 1, by omega⟩
          rw [hk, List.take_succ_cons]
          simp only [Nat.add_sub_cancel]
        have hlentot : (G.drop d ++ 170 :: (t1 ++ f2).take (m' - G.length - 1)).length =
            m' - d := by
          rw [← htc, ← hslice, slice_len (by omega) (by rw [hlenS]; omega)]
        rw [hslice, htc,
          parse_garbage_strip (fun b hb => hG b (List.drop_subset _ _ hb))
            (by rw [List.length_append] at hlentot; omega),
          ← htc]
        rw [hparse, hpk0 d (by omega)]
        simp
  · -- buffer starts exactly at the first frame
    subst hdeq
    obtain ⟨d', hval, hdle, hparse⟩ := hcore m' (by omega) hm'le
    refine ⟨d', hval, hdle, ?_⟩
    rw [show ((G ++ f1 ++ f2).drop G.length).take (m' - G.length) =
      (f1 ++ f2).take (m' - G.length) by rw [hdropG]]
    rw [hparse, hpk0 G.length (le_refl _)]
    simp
  · -- buffer starts exactly at the second frame
    subst hdeq
    by_cases hC : m' < G.length + f1.length + f2.length
    · refine ⟨G.length + f1.length,
        ⟨by omega, hm'le, Or.inr (Or.inr (Or.inl ⟨rfl, hC⟩))⟩, le_refl _, ?_⟩
      rw [hdropGF,
        parse_prefix_stall hs2 (show m' - (G.length + f1.length) < f2.length by omega)]
      simp [List.drop_length]
    · have hm'eq : m' = G.length + f1.length + f2.length := by omega
      refine ⟨G.length + f1.length + f2.length,
        ⟨by omega, hm'le, Or.inr (Or.inr (Or.inr ⟨rfl, hm'eq⟩))⟩, by omega, ?_⟩
      rw [hdropGF,
        show f2.take (m' - (G.length + f1.length)) = f2 by
          rw [hm'eq, show G.length + f1.length + f2.length - (G.length + f1.length) =
            f2.length by omega]
          exact List.take_length f2,
        parse_full_frame hs2 hd2, hpk1, hpk2,
        show ((G ++ f1 ++ f2).drop (G.length + f1.length + f2.length)).take
            (m' - (G.length + f1.length + f2.length)) = [] by
          rw [show m' - (G.length + f1.length + f2.length) = 0 by omega, List.take_zero]]
      simp
  · -- everything already consumed
    subst hdeq
    have hm'eq : m' = G.length + f1.length + f2.length := by omega
    refine ⟨G.length + f1.length + f2.length,
      ⟨by omega, hm'le, Or.inr (Or.inr (Or.inr ⟨rfl, hm'eq⟩))⟩, le_refl _, ?_⟩
    rw [show m' - (G.length + f1.length + f2.length) = 0 by omega, List.take_zero,
      parse_empty]
    simp [List.drop_length]

lemma c3_run {G f1 f2 : List Nat} {p1 p2 q1 q2 : Packet}
    (hG : ∀ b ∈ G, ¬(b = 170))
    (hs1 : serialize_packet p1 = some f1) (hs2 : serialize_packet p2 = some f2)
    (hd1 : deserialize_packet f1 = some q1) (hd2 : deserialize_packet f2 = some q2) :
    ∀ (chunks : List (List Nat)) (d m : Nat),
      c3Valid G.length f1.length f2.length d m →
      chunks.flatten = (G ++ f1 ++ f2).drop m →
      feed_chunks ⟨c3Pkts G.length f1.length f2.length q1 q2 d,
        ((G ++ f1 ++ f2).drop d).take (m - d)⟩ chunks = ⟨[q1, q2], []⟩ := by
  have hL1 : f1.length = 16 + p1.payload.length := frame_length_of_serialize hs1
  have hL2 : f2.length = 16 + p2.payload.length := frame_length_of_serialize hs2
  have hlenS : (G ++ f1 ++ f2).length = G.length + f1.length + f2.length := by
    simp only [List.length_append]
  intro chunks
  induction chunks with
  | nil =>
    intro d m hv hflat
    obtain ⟨hdm, hmle, hcase⟩ := hv
    have hmend : m = G.length + f1.length + f2.length := by
      have hlen := congrArg List.length hflat
      rw [List.length_drop, hlenS] at hlen
      simp only [List.flatten_nil, List.length_nil] at hlen
      omega
    have hdend : d = G.length + f1.length + f2.length := by
      rcases hcase with ⟨h1, h2⟩ | ⟨h1, h2⟩ | ⟨h1, h2⟩ | ⟨h1, h2⟩ <;> omega
    have hE : c3Pkts G.length f1.length f2.length q1 q2 d = [q1, q2] := by
      rw [hdend]
      unfold c3Pkts
      rw [if_neg (by omega), if_neg (by omega)]
    have hB : ((G ++ f1 ++ f2).drop d).take (m - d) = [] := by
      rw [hdend, hmend, Nat.sub_self, List.take_zero]
    simp only [feed_chunks, List.foldl_nil]
    rw [hE, hB]
  | cons c rest ih =>
    intro d m hv hflat
    rw [List.flatten_cons] at hflat
    have hmle : m ≤ G.length + f1.length + f2.length := hv.2.1
    have hmc_le : m + c.length ≤ (G ++ f1 ++ f2).length := by
      have hlen := congrArg List.length hflat
      rw [List.length_append, List.length_drop] at hlen
      omega
    have hflat_c : c = ((G ++ f1 ++ f2).drop m).take c.length := by
      rw [← hflat, List.take_left]
    have hrest : rest.flatten = (G ++ f1 ++ f2).drop (m + c.length) := by
      have h1 : rest.flatten = (c ++ rest.flatten).drop c.length := (List.drop_left c _).symm
      rw [h1, hflat, List.drop_drop]
    obtain ⟨d', hval, hdle, hparse⟩ := c3_step hG hs1 hs2 hd1 hd2 hv
      (Nat.le_add_right m c.length) (by rw [← hlenS]; exact hmc_le)
    have hbuf : ((G ++ f1 ++ f2).drop d).take (m - d) ++ c =
        ((G ++ f1 ++ f2).drop d).take (m + c.length - d) := by
      rw [hflat_c, show c.length = (m + c.length) - m by omega,
        slice_append hv.1 (Nat.le_add_right m c.length)]
      congr 1
      rw [List.length_take, List.length_drop]
      omega
    have hstep : feed_chunk ⟨c3Pkts G.length f1.length f2.length q1 q2 d,
        ((G ++ f1 ++ f2).drop d).take (m - d)⟩ c =
        ⟨c3Pkts G.length f1.length f2.length q1 q2 d',
          ((G ++ f1 ++ f2).drop d').take (m + c.length - d')⟩ := by
      unfold feed_chunk
      dsimp only
      rw [hbuf, hparse]
      dsimp only
      rw [c3Pkts_mono q1 q2 hdle]
    show feed_chunks _ (c :: rest) = _
    simp only [feed_chunks, List.foldl_cons]
    rw [hstep]
    have := ih d' (m + c.length) hval hrest
    simpa only [feed_chunks] using this

lemma serialize_pkt0 : serialize_packet pkt0 = some c3_frame := by
  have hts : (pyInt ((0 : ℚ) * 1000)).toNat = 0 := by norm_num [pyInt]
  have hts0 : (pyInt (0 : ℚ)).toNat = 0 := by norm_num [pyInt]
  have hfb : frame_body pkt0 = cex7_prefix := by
    rw [frame_body_eq]
    show (170 : Nat) :: pkt0.packet_type.toByte :: _ :: _ :: _ :: _ :: _ :: _ ::
      _ :: _ :: _ :: _ :: pkt0.payload = _
    norm_num [pkt0, PacketType.toByte, hts, hts0, cex7_prefix]
  unfold serialize_packet
  rw [if_pos (by norm_num [pkt0, pyInt]), hfb]
  rfl

lemma deserialize_c3_frame : deserialize_packet c3_frame = some pkt0 := by
  have h := deserialize_serialize (p := pkt0) (by decide) serialize_pkt0
  rw [h]
  have hts : (((pyInt (pkt0.timestamp * 1000)).toNat : Nat) : ℚ) / 1000 = pkt0.timestamp := by
    norm_num [pkt0, pyInt]
  rw [hts]

lemma serialize_c3_p1 : serialize_packet c3_p1 = some c3_f1 := by
  have hts : (pyInt ((1 / 1000 : ℚ) * 1000)).toNat = 1 := by norm_num [pyInt]
  have hts1 : (pyInt (1 : ℚ)).toNat = 1 := by norm_num [pyInt]
  have hfb : frame_body c3_p1 = c3_f1_body := by
    rw [frame_body_eq]
    show (170 : Nat) :: c3_p1.packet_type.toByte :: _ :: _ :: _ :: _ :: _ :: _ ::
      _ :: _ :: _ :: _ :: c3_p1.payload = _
    norm_num [c3_p1, PacketType.toByte, hts, hts1, c3_f1_body]
  unfold serialize_packet
  rw [if_pos (by norm_num [c3_p1, pyInt]), hfb]
  rfl

lemma deserialize_c3_f1 : deserialize_packet c3_f1 = some c3_p1 := by
  have h := deserialize_serialize (p := c3_p1) (by decide) serialize_c3_p1
  rw [h]
  have hts : (((pyInt (c3_p1.timestamp * 1000)).toNat : Nat) : ℚ) / 1000 =
      c3_p1.timestamp := by
    norm_num [c3_p1, pyInt]
  rw [hts]

/-- C3 (corrected): provided the leading garbage contains no magic byte 0xAA,
feeding garbage ++ frame1 ++ frame2 through the receive loop yields exactly
the two decoded packets in order with an empty residual buffer, for every way
of splitting the stream into successive chunks; and whenever the buffer has
the magic byte at its head with a complete candidate frame available whose
decode fails, the parser drops exactly one byte before retrying.  The
original claim's "arbitrary garbage" is false: garbage containing 0xAA can
make the size field read into the first frame's bytes and stall the parser
(see the counterexample). -/
theorem c3_amended {G f1 f2 : List Nat} {p1 p2 q1 q2 : Packet}
    (hG : ∀ b ∈ G, ¬(b = 170))
    (hs1 : serialize_packet p1 = some f1) (hs2 : serialize_packet p2 = some f2)
    (hd1 : deserialize_packet f1 = some q1) (hd2 : deserialize_packet f2 = some q2) :
    (∀ chunks : List (List Nat), chunks.flatten = G ++ f1 ++ f2 →
      feed_chunks ⟨[], []⟩ chunks = ⟨[q1, q2], []⟩) ∧
    (∀ buf : List Nat, 16 ≤ buf.length → buf.getD 0 0 = 170 →
      12 + from4be ((buf.drop 8).take 4) + 4 ≤ buf.length →
      deserialize_packet (buf.take (12 + from4be ((buf.drop 8).take 4) + 4)) = none →
      parse_buffer buf = parse_buffer (buf.drop 1)) := by
  constructor
  · intro chunks hflat
    have hL1 : f1.length = 16 + p1.payload.length := frame_length_of_serialize hs1
    have hvalid : c3Valid G.length f1.length f2.length 0 0 :=
      ⟨le_refl 0, Nat.zero_le _, Or.inl ⟨Nat.zero_le _, by omega⟩⟩
    have h := c3_run hG hs1 hs2 hd1 hd2 chunks 0 0 hvalid
      (by rw [List.drop_zero]; exact hflat)
    have hE : c3Pkts G.length f1.length f2.length q1 q2 0 = [] := by
      unfold c3Pkts
      rw [if_pos (by omega)]
    have hB : ((G ++ f1 ++ f2).drop 0).take (0 - 0) = [] := by simp
    rw [hE, hB] at h
    exact h
  · intro buf hlen hhead hfit hfail
    cases buf with
    | nil => simp at hlen
    | cons b t =>
      have hb : b = 170 := by simpa using hhead
      subst hb
      rw [parse_buffer_eq (170 :: t)]
      rw [if_neg (by omega)]
      rw [show (170 :: t).findIdx? (fun b => b == 170) = some 0 from by
        rw [List.findIdx?_cons]
        simp]
      dsimp only
      rw [List.drop_zero]
      rw [if_neg (by omega), if_neg (by omega), hfail]

theorem c3_amended_witness :
    (∀ b ∈ c3_garbage, ¬(b = 170)) ∧
    serialize_packet pkt0 = some c3_frame ∧
    deserialize_packet c3_frame = some pkt0 ∧
    feed_chunks ⟨[], []⟩ [c3_garbage ++ c3_frame, c3_frame] = ⟨[pkt0, pkt0], []⟩ :=
  ⟨by decide, serialize_pkt0, deserialize_c3_frame,
    (c3_amended (show ∀ b ∈ c3_garbage, ¬(b = 170) by decide) serialize_pkt0
      serialize_pkt0 deserialize_c3_frame
      deserialize_c3_frame).1 [c3_garbage ++ c3_frame, c3_frame] (by simp)⟩

/-- C3 counterexample to the original claim: take garbage consisting of the
single magic byte 0xAA, followed by two copies of a valid frame whose
millisecond field has low byte 1 (frame byte 7).  The parser locks onto the
garbage 0xAA, reads buffer bytes 8..11 — which are bytes 7..10 of the first
frame, namely [1,0,0,0] — as a payload length of 2^24, decides the frame is
incomplete and waits for more data: delivering the whole stream in a single
chunk emits no packet at all, refuting resync under arbitrary garbage. -/
theorem c3_counterexample :
    serialize_packet c3_p1 = some c3_f1 ∧
    deserialize_packet c3_f1 = some c3_p1 ∧
    feed_chunks ⟨[], []⟩ [[170] ++ c3_f1 ++ c3_f1] ≠ ⟨[c3_p1, c3_p1], []⟩ :=
  ⟨serialize_c3_p1, deserialize_c3_f1, by decide⟩

end SerialTester
